import Mathlib

/-!
Shallow embedding of the Poker repository's game engine
(`GameImplementation/src/engine/{Card,Deck,Player}.ts`,
`GameImplementation/src/engine/Game.ts`, `GameImplementation/src/engine/Hand.ts`)
and the parts of the HTTP server's seat-player endpoint needed by the claims.

Modelling conventions:
* JS numbers holding chip amounts, blinds, pots and timestamps are modelled as `Int`.
* Array indices are `Nat`; `lastRaiserIndex` (which uses -1 as a sentinel) is `Int`.
* A thrown JS exception is an `Except.error`; `Game.handleAction` wraps its body in
  try/catch, so inside that body an error carries the state as mutated so far
  (JS keeps mutations made on `this` before the throw).
* `Deck.shuffle` calls `Math.random`; the shuffled deck order is therefore taken as
  an explicit parameter of `startHand`, and `Date.now()` as an explicit `now` argument.
* TS string-literal union types are erased at runtime, so `Card.suit`/`Card.rank`
  are plain `String`s (this is what makes the `fromJSON` argument swap observable).
-/

namespace Poker

instance exceptDecEq {ε α : Type} [DecidableEq ε] [DecidableEq α] :
    DecidableEq (Except ε α) := fun x y =>
  match x, y with
  | .ok a, .ok b => if h : a = b then isTrue (by rw [h]) else isFalse (by simp [h])
  | .error a, .error b => if h : a = b then isTrue (by rw [h]) else isFalse (by simp [h])
  | .ok _, .error _ => isFalse (by simp)
  | .error _, .ok _ => isFalse (by simp)

/-- `Card.ts`: a playing card. The constructor order is `(suit, rank)`. -/
structure Card where
  suit : String
  rank : String
deriving DecidableEq, Repr

instance : Inhabited Card := ⟨⟨"", ""⟩⟩

/-- `Card.getValue`: the lookup table `values[this.rank]`. For a rank string outside
the table JS yields `undefined`; that case is unreachable for deck-built cards and is
modelled as 0. -/
def Card.getValue (c : Card) : Int :=
  match c.rank with
  | "2" => 2 | "3" => 3 | "4" => 4 | "5" => 5 | "6" => 6 | "7" => 7 | "8" => 8
  | "9" => 9 | "10" => 10 | "J" => 11 | "Q" => 12 | "K" => 13 | "A" => 14
  | _ => 0

/-- `Deck.reset`: suits × ranks in the source's nesting order. -/
def deckSuits : List String := ["hearts", "diamonds", "clubs", "spades"]

def deckRanks : List String :=
  ["2", "3", "4", "5", "6", "7", "8", "9", "10", "J", "Q", "K", "A"]

def resetDeck : List Card :=
  deckSuits.flatMap fun s => deckRanks.map fun r => ⟨s, r⟩

/-- `Deck.deal`: `this.cards.pop()` removes from the END of the array. -/
def dealCard (cards : List Card) : Except String (Card × List Card) :=
  match cards.getLast? with
  | none => .error "Cannot deal from an empty deck"
  | some c => .ok (c, cards.dropLast)

/-- `Deck.dealMultiple(count)`. -/
def dealMultipleCards (cards : List Card) : Nat → Except String (List Card × List Card)
  | 0 => .ok ([], cards)
  | n + 1 => do
    let (c, rest) ← dealCard cards
    let (cs, rest') ← dealMultipleCards rest n
    .ok (c :: cs, rest')

/-- `Deck.burn`: pops the top card if the deck is non-empty (no throw on empty). -/
def burnCard (cards : List Card) : List Card :=
  if cards.length > 0 then cards.dropLast else cards

/-- `Player.ts`: per-seat state. -/
structure Player where
  id : String
  name : String
  seatNumber : Option Int
  stack : Int
  currentBet : Int := 0
  totalBetThisRound : Int := 0
  holeCards : List Card := []
  hasFolded : Bool := false
  isAllIn : Bool := false
  isActive : Bool := true
deriving DecidableEq, Repr

/-- `new Player(id, name, initialStack, seatNumber)`. -/
def Player.mkNew (id name : String) (initialStack : Int) (seatNumber : Option Int) : Player :=
  { id := id, name := name, stack := initialStack, seatNumber := seatNumber }

/-- `Player.dealHoleCards`: checks only that exactly 2 cards are given; there is no
check that the hole-card slot is empty, the previous cards are overwritten. -/
def Player.dealHoleCards (p : Player) (cards : List Card) : Except String Player :=
  if cards.length ≠ 2 then
    .error "Player must receive exactly 2 hole cards"
  else
    .ok { p with holeCards := cards }

/-- `Player.bet`: returns the chips actually wagered and the updated player. -/
def Player.bet (p : Player) (amount : Int) : Except String (Int × Player) :=
  if amount < 0 then
    .error "Bet amount cannot be negative"
  else if amount ≥ p.stack then
    let allInAmount := p.stack
    .ok (allInAmount,
      { p with currentBet := p.currentBet + allInAmount,
               totalBetThisRound := p.totalBetThisRound + allInAmount,
               stack := 0,
               isAllIn := true })
  else
    .ok (amount,
      { p with stack := p.stack - amount,
               currentBet := p.currentBet + amount,
               totalBetThisRound := p.totalBetThisRound + amount })

def Player.fold (p : Player) : Player :=
  { p with hasFolded := true, isActive := false }

def Player.resetForNewRound (p : Player) : Player :=
  { p with currentBet := 0 }

def Player.resetForNewHand (p : Player) : Player :=
  { p with currentBet := 0, totalBetThisRound := 0, holeCards := [],
           hasFolded := false, isAllIn := false, isActive := p.stack > 0 }

def Player.addChips (p : Player) (amount : Int) : Player :=
  { p with stack := p.stack + amount }

def Player.setInactive (p : Player) : Player :=
  { p with isActive := false }

/-! ## Hand evaluator (`Hand.ts`) -/

/-- `HandRank` enum values. -/
def ROYAL_FLUSH : Int := 10
def STRAIGHT_FLUSH : Int := 9
def FOUR_OF_A_KIND : Int := 8
def FULL_HOUSE : Int := 7
def FLUSH : Int := 6
def STRAIGHT : Int := 5
def THREE_OF_A_KIND : Int := 4
def TWO_PAIR : Int := 3
def ONE_PAIR : Int := 2
def HIGH_CARD : Int := 1

structure HandEvaluation where
  rank : Int
  rankName : String
  cards : List Card
  tiebreakers : List Int
deriving DecidableEq, Repr

/-- Stable insertion step for `[...cards].sort((a,b) => b.getValue() - a.getValue())`:
`x` goes after every already-placed card of value ≥ its own. -/
def insertCardDesc (x : Card) : List Card → List Card
  | [] => [x]
  | y :: ys => if y.getValue ≥ x.getValue then y :: insertCardDesc x ys else x :: y :: ys

def sortCardsDesc (l : List Card) : List Card :=
  l.foldl (fun acc x => insertCardDesc x acc) []

/-- Same for `values.sort((a,b) => b - a)` on numbers. -/
def insertIntDesc (x : Int) : List Int → List Int
  | [] => [x]
  | y :: ys => if y ≥ x then y :: insertIntDesc x ys else x :: y :: ys

def sortIntDesc (l : List Int) : List Int :=
  l.foldl (fun acc x => insertIntDesc x acc) []

/-- `isFlush`: `cards.every(card => card.suit === cards[0].suit)`. -/
def isFlush : List Card → Bool
  | [] => true
  | c0 :: rest => rest.all fun c => c.suit == c0.suit

/-- The `isRegularStraight` loop: each adjacent pair of the descending values differs by 1. -/
def regularStraight : List Int → Bool
  | [] => true
  | [_] => true
  | x :: y :: rest => x - y == 1 && regularStraight (y :: rest)

/-- `isStraight`: regular straight on descending values, or the wheel pattern
`values[0]===14 && values[1]===5 && ... && values[4]===2`. -/
def isStraight (cards : List Card) : Bool :=
  let values := sortIntDesc (cards.map Card.getValue)
  let isRegular := regularStraight values
  let isWheel :=
    match values with
    | v0 :: v1 :: v2 :: v3 :: v4 :: _ =>
        v0 == 14 && v1 == 5 && v2 == 4 && v3 == 3 && v4 == 2
    | _ => false
  isRegular || isWheel

/-- `groupByRank`: buckets by `getValue`, in first-occurrence order (the order groups
are enumerated in never matters in `evaluate5Cards`: each size test below picks a
group that is unique in a 5-card hand). -/
def groupByRank (cards : List Card) : List (Int × List Card) :=
  cards.foldl
    (fun groups c =>
      let v := c.getValue
      if groups.any (fun g => g.1 == v) then
        groups.map fun g => if g.1 == v then (g.1, g.2 ++ [c]) else g
      else
        groups ++ [(v, [c])])
    []

/-- `evaluate5Cards`. -/
def evaluate5Cards (cards : List Card) : HandEvaluation :=
  let sorted := sortCardsDesc cards
  let flush := isFlush sorted
  let straight := isStraight sorted
  if flush && straight then
    let isRoyal := (sorted.headD default).getValue == 14
    { rank := if isRoyal then ROYAL_FLUSH else STRAIGHT_FLUSH,
      rankName := if isRoyal then "Royal Flush" else "Straight Flush",
      cards := sorted,
      tiebreakers := [(sorted.headD default).getValue] }
  else
    let groups := groupByRank sorted
    let groupSizes := sortIntDesc (groups.map fun g => (g.2.length : Int))
    if groupSizes.headD 0 == 4 then
      let quadValue := ((groups.find? fun g => g.2.length == 4).map (·.1)).getD 0
      let kicker := ((sorted.find? fun c => c.getValue ≠ quadValue).map Card.getValue).getD 0
      { rank := FOUR_OF_A_KIND, rankName := "Four of a Kind", cards := sorted,
        tiebreakers := [quadValue, kicker] }
    else if groupSizes.headD 0 == 3 && (groupSizes.drop 1).headD 0 == 2 then
      let tripValue := ((groups.find? fun g => g.2.length == 3).map (·.1)).getD 0
      let pairValue := ((groups.find? fun g => g.2.length == 2).map (·.1)).getD 0
      { rank := FULL_HOUSE, rankName := "Full House", cards := sorted,
        tiebreakers := [tripValue, pairValue] }
    else if flush then
      { rank := FLUSH, rankName := "Flush", cards := sorted,
        tiebreakers := sorted.map Card.getValue }
    else if straight then
      { rank := STRAIGHT, rankName := "Straight", cards := sorted,
        tiebreakers := [(sorted.headD default).getValue] }
    else if groupSizes.headD 0 == 3 then
      let tripValue := ((groups.find? fun g => g.2.length == 3).map (·.1)).getD 0
      let kickers := (sorted.filter fun c => c.getValue ≠ tripValue).map Card.getValue
      { rank := THREE_OF_A_KIND, rankName := "Three of a Kind", cards := sorted,
        tiebreakers := tripValue :: kickers }
    else if groupSizes.headD 0 == 2 && (groupSizes.drop 1).headD 0 == 2 then
      let pairs := sortIntDesc ((groups.filter fun g => g.2.length == 2).map (·.1))
      let kicker := ((sorted.find? fun c => ¬ pairs.contains c.getValue).map Card.getValue).getD 0
      { rank := TWO_PAIR, rankName := "Two Pair", cards := sorted,
        tiebreakers := [pairs.headD 0, (pairs.drop 1).headD 0, kicker] }
    else if groupSizes.headD 0 == 2 then
      let pairValue := ((groups.find? fun g => g.2.length == 2).map (·.1)).getD 0
      let kickers := (sorted.filter fun c => c.getValue ≠ pairValue).map Card.getValue
      { rank := ONE_PAIR, rankName := "One Pair", cards := sorted,
        tiebreakers := pairValue :: kickers }
    else
      { rank := HIGH_CARD, rankName := "High Card", cards := sorted,
        tiebreakers := sorted.map Card.getValue }

/-- The tiebreaker loop of `compareHands`: position `i` compares
`tiebreakers[i] || 0` on both sides; the fuel is the loop bound
`max(len1, len2)` and each step drops one position. -/
def cmpTiebreakersAux : List Int → List Int → Nat → Int
  | _, _, 0 => 0
  | a, b, fuel + 1 =>
    if a.headD 0 ≠ b.headD 0 then a.headD 0 - b.headD 0
    else cmpTiebreakersAux a.tail b.tail fuel

def cmpTiebreakers (a b : List Int) : Int :=
  cmpTiebreakersAux a b (max a.length b.length)

/-- `compareHands`: positive iff hand1 wins. -/
def compareHands (h1 h2 : HandEvaluation) : Int :=
  if h1.rank ≠ h2.rank then h1.rank - h2.rank
  else cmpTiebreakers h1.tiebreakers h2.tiebreakers

/-- `getCombinations(arr, size)`: the JS loop `for i in 0..arr.length-size` with
`head = arr[i]`, recursing on `arr.slice(i+1)`. The fuel is `arr.length`; every
recursive call strictly shrinks the array, so the 0-fuel fallback is unreachable. -/
def getCombosAux (arr : List Card) (size : Nat) : Nat → List (List Card)
  | 0 => []
  | fuel + 1 =>
    if size > arr.length then []
    else if size = arr.length then [arr]
    else if size = 1 then arr.map ([·])
    else
      (List.range (arr.length - size + 1)).flatMap fun i =>
        match arr.drop i with
        | [] => []
        | head :: tail => (getCombosAux tail (size - 1) fuel).map (head :: ·)

def getCombinations (arr : List Card) (size : Nat) : List (List Card) :=
  getCombosAux arr size arr.length

/-- `evaluateHand`: best 5-card evaluation over all 5-subsets. The source folds with
a nullable `bestHand`; `null` survives only when there are no combinations, which
cannot happen for ≥ 5 cards (modelled as an error, as any use of the null would throw). -/
def evaluateHand (cards : List Card) : Except String HandEvaluation :=
  if cards.length < 5 then
    .error "Need at least 5 cards to evaluate a hand"
  else
    let combos := getCombinations cards 5
    let best := combos.foldl
      (fun best combo =>
        let e := evaluate5Cards combo
        match best with
        | none => some e
        | some b => if compareHands e b > 0 then some e else some b)
      none
    match best with
    | some b => .ok b
    | none => .error "TypeError"

/-! ## Game state machine (`Game.ts`) -/

inductive GameStage
  | waiting | preflop | flop | turn | river | showdown | complete
deriving DecidableEq, Repr

structure GameConfig where
  smallBlind : Int
  bigBlind : Int
  initialStack : Int
  ante : Option Int := none
  actionTimeoutSeconds : Option Int := none
deriving DecidableEq, Repr

inductive PlayerAction
  | fold | check | call | bet | raise | allin
deriving DecidableEq, Repr

structure GameSt where
  config : GameConfig
  players : List Player := []
  deck : List Card := resetDeck
  communityCards : List Card := []
  pot : Int := 0
  stage : GameStage := .waiting
  currentPlayerIndex : Nat := 0
  currentBet : Int := 0
  dealerIndex : Nat := 0
  smallBlindIndex : Nat := 0
  bigBlindIndex : Nat := 0
  lastRaiserIndex : Int := -1
  playersActedThisRound : List String := []
  lastRaiseSize : Int := 0
  actionStartTime : Int := 0
  currentActionPlayerId : Option String := none
deriving DecidableEq, Repr

structure ActionResult where
  valid : Bool
  error : Option String := none
deriving DecidableEq, Repr

/-- `Set.add` on `playersActedThisRound` (insertion-ordered, no duplicates). -/
def setAdd (s : List String) (x : String) : List String :=
  if s.contains x then s else s ++ [x]

/-- The seat comparator `(a, b) => (a.seatNumber ?? Infinity) - (b.seatNumber ?? Infinity)`:
true iff a's key ≤ b's key. -/
def seatLE (a b : Player) : Bool :=
  match a.seatNumber, b.seatNumber with
  | some x, some y => x ≤ y
  | some _, none => true
  | none, some _ => false
  | none, none => true

/-- Stable sort by seat number (modern `Array.prototype.sort` is stable): each element
is inserted after all already-placed elements whose key is ≤ its own. -/
def insertBySeat (x : Player) : List Player → List Player
  | [] => [x]
  | y :: ys => if seatLE y x then y :: insertBySeat x ys else x :: y :: ys

def sortBySeat (l : List Player) : List Player :=
  l.foldl (fun acc x => insertBySeat x acc) []

structure JoinCheck where
  canJoin : Bool
  reason : String
deriving DecidableEq, Repr

/-- `Game.canPlayerJoinAtSeat`. The temporary entry `{ seatNumber } as Player` is a
stub object carrying only the seat number. -/
def canPlayerJoinAtSeat (g : GameSt) (seatNumber : Int) : JoinCheck :=
  if g.stage = .waiting ∨ g.stage = .complete then
    { canJoin := true, reason := "Game not in progress" }
  else if g.players.length = 0 then
    { canJoin := true, reason := "No players yet" }
  else
    let stub : Player := { id := "", name := "", seatNumber := some seatNumber, stack := 0 }
    let tempPlayers := sortBySeat (g.players ++ [stub])
    let newPlayerIndex := tempPlayers.findIdx fun p => p.seatNumber == some seatNumber
    let nextDealerIndex := (g.dealerIndex + 1) % tempPlayers.length
    let nextBigBlindIndex :=
      if tempPlayers.length = 2 then (nextDealerIndex + 1) % tempPlayers.length
      else (nextDealerIndex + 2) % tempPlayers.length
    if newPlayerIndex = nextBigBlindIndex then
      { canJoin := true, reason := "You will be the big blind in the next hand" }
    else
      { canJoin := false,
        reason := "You can only join when you would be the big blind. Wait for the current hand to finish and try a different seat or timing." }

/-- `Game.addPlayer`: capacity guard, then the mid-hand blind-position rule (a failed
check throws; a passed check seats the player inactive for the current hand), then
re-sort by seat number. -/
def addPlayer (g : GameSt) (p : Player) : Except String GameSt :=
  if g.players.length ≥ 10 then
    .error "Maximum 10 players allowed"
  else if g.stage ≠ .waiting ∧ g.stage ≠ .complete then
    let jc := canPlayerJoinAtSeat g (p.seatNumber.getD 0)
    if jc.canJoin then
      .ok { g with players := sortBySeat (g.players ++ [p.setInactive]) }
    else
      .error jc.reason
  else
    .ok { g with players := sortBySeat (g.players ++ [p]) }

/-- `Game.startActionTimer`: `Date.now()` is the explicit `now` argument. -/
def startActionTimer (g : GameSt) (now : Int) : Except String GameSt :=
  match g.players[g.currentPlayerIndex]? with
  | none => .error "TypeError"
  | some p => .ok { g with actionStartTime := now, currentActionPlayerId := some p.id }

/-- `Game.hasActionTimedOut`: false when no (or falsy 0) timeout is configured,
otherwise `getRemainingActionTime() <= 0`, i.e. `timeout ≤ (now - start) / 1000`
as an exact rational comparison. -/
def hasActionTimedOut (g : GameSt) (now : Int) : Bool :=
  match g.config.actionTimeoutSeconds with
  | none => false
  | some t => if t = 0 then false else 1000 * t ≤ now - g.actionStartTime

/-- The ante loop in `startHand`: each player antes in order, the pot accumulates
each returned amount. -/
def postAntes (ante : Int) : List Player → Int → Except String (List Player × Int)
  | [], pot => .ok ([], pot)
  | p :: ps, pot => do
    let (amt, p') ← p.bet ante
    let (ps', pot') ← postAntes ante ps (pot + amt)
    .ok (p' :: ps', pot')

/-- `this.players[i].bet(amount)`: bets by the player at index `i`, in place. -/
def betAtIndex (l : List Player) (i : Nat) (amount : Int) : Except String (Int × List Player) :=
  match l[i]? with
  | none => .error "TypeError"
  | some p => do
    let (amt, p') ← p.bet amount
    .ok (amt, l.set i p')

/-- The hole-card loop in `startHand`: each player in list order receives
`deck.dealMultiple(2)`. -/
def dealHoleLoop : List Player → List Card → Except String (List Player × List Card)
  | [], deck => .ok ([], deck)
  | p :: ps, deck => do
    let (cs, deck') ← dealMultipleCards deck 2
    let p' ← p.dealHoleCards cs
    let (ps', deck'') ← dealHoleLoop ps deck'
    .ok (p' :: ps', deck'')

/-- `this.players[i].id`: a TypeError is thrown when the index is out of range. -/
def playerIdAt (l : List Player) (i : Nat) : Except String String :=
  match l[i]? with
  | some p => pure p.id
  | none => .error "TypeError"

/-- The tail of `Game.startHand`, from "Move dealer button" (always rotate, even on
the first hand) through posting blinds, marking the blind posters as having acted,
dealing hole cards, entering preflop and starting the action timer. -/
def startHandBlinds (g : GameSt) (now : Int) : Except String GameSt := do
  let dealerIndex := (g.dealerIndex + 1) % g.players.length
  let (smallBlindIndex, bigBlindIndex) :=
    if g.players.length = 2 then
      (dealerIndex, (dealerIndex + 1) % g.players.length)
    else
      ((dealerIndex + 1) % g.players.length, (dealerIndex + 2) % g.players.length)
  let (sbAmount, ps1) ← betAtIndex g.players smallBlindIndex g.config.smallBlind
  let (bbAmount, ps2) ← betAtIndex ps1 bigBlindIndex g.config.bigBlind
  let g := { g with players := ps2, pot := g.pot + sbAmount + bbAmount,
                    currentBet := g.config.bigBlind, dealerIndex := dealerIndex,
                    smallBlindIndex := smallBlindIndex, bigBlindIndex := bigBlindIndex }
  let sbId ← playerIdAt g.players smallBlindIndex
  let bbId ← playerIdAt g.players bigBlindIndex
  let g := { g with playersActedThisRound := setAdd (setAdd g.playersActedThisRound sbId) bbId }
  let (ps3, deck') ← dealHoleLoop g.players g.deck
  let g := { g with players := ps3, deck := deck', stage := .preflop }
  let currentPlayerIndex :=
    if g.players.length = 2 then g.smallBlindIndex
    else (g.bigBlindIndex + 1) % g.players.length
  startActionTimer { g with currentPlayerIndex := currentPlayerIndex } now

/-- `Game.startHand`. `shuffled` is the deck order produced by
`deck.reset(); deck.shuffle()` (Fisher-Yates over `Math.random`), passed explicitly. -/
def startHand (g : GameSt) (shuffled : List Card) (now : Int) : Except String GameSt := do
  if g.players.length < 2 then
    .error "Need at least 2 players to start"
  else
    let g := { g with deck := shuffled, communityCards := [], pot := 0, currentBet := 0,
                      lastRaiserIndex := -1, lastRaiseSize := 0, playersActedThisRound := [] }
    let g := { g with players := g.players.map Player.resetForNewHand }
    let g ← match g.config.ante with
      | some a =>
        if a > 0 then do
          let (ps, pot') ← postAntes a g.players g.pot
          pure { g with players := ps, pot := pot' }
        else pure g
      | none => pure g
    startHandBlinds g now

/-- `Game.getMinimumRaise`. -/
def getMinimumRaise (g : GameSt) : Int :=
  if g.currentBet = 0 then g.config.bigBlind
  else if g.lastRaiseSize = 0 then g.currentBet
  else g.lastRaiseSize

def canStillAct (p : Player) : Bool :=
  p.isActive && !p.hasFolded && !p.isAllIn

/-- `Game.isBettingRoundComplete`. -/
def isBettingRoundComplete (g : GameSt) (nextIndex : Nat) : Bool :=
  let activePlayers := g.players.filter canStillAct
  if activePlayers.length = 0 then true
  else if g.lastRaiserIndex ≠ -1 then (nextIndex : Int) == g.lastRaiserIndex
  else activePlayers.all fun p => g.playersActedThisRound.contains p.id

def dealFlop (g : GameSt) : Except String GameSt := do
  let deck := burnCard g.deck
  let (cs, deck') ← dealMultipleCards deck 3
  .ok { g with deck := deck', communityCards := g.communityCards ++ cs, stage := .flop }

def dealTurn (g : GameSt) : Except String GameSt := do
  let deck := burnCard g.deck
  let (c, deck') ← dealCard deck
  .ok { g with deck := deck', communityCards := g.communityCards ++ [c], stage := .turn }

def dealRiver (g : GameSt) : Except String GameSt := do
  let deck := burnCard g.deck
  let (c, deck') ← dealCard deck
  .ok { g with deck := deck', communityCards := g.communityCards ++ [c], stage := .river }

/-- `Game.handleWinner(winner)`: the unique active non-folded player collects the pot
(modelled by updating exactly the players satisfying that uniqueness filter); the pot
field itself is not cleared. -/
def handleWinner (g : GameSt) : GameSt :=
  let credited := g.players.map fun p =>
    if p.isActive && !p.hasFolded then p.addChips g.pot else p
  { g with players := credited, stage := .complete }

/-- `Game.showdown`: evaluate every active non-folded seat's 7 cards; first maximal
evaluation (what `evaluations.sort(desc)[0]` yields under a stable sort) defines the
winner set; the pot is floor-split; stage ends `complete`. Seats are tracked by list
index, standing for JS object identity. -/
def showdown (g : GameSt) : Except String GameSt := do
  let g := { g with stage := .showdown }
  let actives := g.players.enum.filter fun ip => ip.2.isActive && !ip.2.hasFolded
  let evals ← actives.mapM fun ip =>
    (evaluateHand (ip.2.holeCards ++ g.communityCards)).map fun e => (ip.1, e)
  match evals with
  | [] => .error "TypeError"
  | e0 :: es =>
    let best := (es.foldl (fun b e => if compareHands e.2 b.2 > 0 then e else b) e0).2
    let winners := (e0 :: es).filter fun e => compareHands e.2 best == 0
    let winAmount := Int.fdiv g.pot winners.length
    let winnerIdxs := winners.map (·.1)
    let credited := g.players.enum.map fun ip =>
      if winnerIdxs.contains ip.1 then ip.2.addChips winAmount else ip.2
    .ok { g with players := credited, stage := .complete }

/-- The `while (communityCards.length < 5)` loop in `advanceStage`, with fuel (the JS
loop runs at most 3 iterations from the reachable lengths 0/3/4; lengths 1 and 2 would
spin forever and are modelled as an error). -/
def dealRemainingLoop : GameSt → Nat → Except String GameSt
  | g, 0 => .ok g
  | g, fuel + 1 =>
    if g.communityCards.length < 5 then do
      let g' ←
        if g.communityCards.length = 0 then dealFlop g
        else if g.communityCards.length = 3 then dealTurn g
        else if g.communityCards.length = 4 then dealRiver g
        else .error "nonterminatingCommunityLength"
      dealRemainingLoop { g' with players := g'.players.map Player.resetForNewRound } fuel
    else .ok g

/-- The find-first-active-from-small-blind loop of `advanceStage`; `.ok none` is the
wrap-around-to-small-blind safety check (go to showdown), with fuel covering the bound
within which that check must fire. -/
def findFirstActiveLoop (g : GameSt) : Nat → Nat → Except String (Option Nat)
  | _, 0 => .ok none
  | idx, fuel + 1 =>
    match g.players[idx]? with
    | none => .error "TypeError"
    | some p =>
      if p.hasFolded || p.isAllIn || !p.isActive then
        let idx' := (idx + 1) % g.players.length
        if idx' = g.smallBlindIndex then .ok none
        else findFirstActiveLoop g idx' fuel
      else .ok (some idx)

/-- `Game.advanceStage`. -/
def advanceStage (g : GameSt) (now : Int) : Except String GameSt := do
  let g := { g with players := g.players.map Player.resetForNewRound,
                    currentBet := 0, lastRaiserIndex := -1, lastRaiseSize := 0,
                    playersActedThisRound := [] }
  let activePlayers := g.players.filter fun p => p.isActive && !p.hasFolded
  let playersWhoCanAct := activePlayers.filter fun p => !p.isAllIn
  if playersWhoCanAct.length ≤ 1 ∧ g.stage ≠ .river then do
    let g' ← dealRemainingLoop g 5
    showdown g'
  else do
    match ← findFirstActiveLoop g g.smallBlindIndex (g.players.length + 1) with
    | none => showdown g
    | some firstPlayerIndex =>
      let g := { g with currentPlayerIndex := firstPlayerIndex }
      let g' ← match g.stage with
        | .preflop => dealFlop g
        | .flop => dealTurn g
        | .turn => dealRiver g
        | .river => showdown g
        | _ => pure g
      startActionTimer g' now

/-- The player-search loop of `Game.nextTurn`. The source counts `attempts` up to
`players.length`; here `remaining = players.length - attempts` counts down, and
`remaining = 0` is the loop exit into `advanceStage`. -/
def nextTurnLoop (g : GameSt) (now : Int) : Nat → Nat → Except String GameSt
  | _, 0 => advanceStage g now
  | nextIndex, remaining + 1 =>
    match g.players[nextIndex]? with
    | none => .error "TypeError"
    | some nextPlayer =>
      if nextPlayer.isActive && !nextPlayer.hasFolded && !nextPlayer.isAllIn then
        if isBettingRoundComplete g nextIndex then advanceStage g now
        else startActionTimer { g with currentPlayerIndex := nextIndex } now
      else nextTurnLoop g now ((nextIndex + 1) % g.players.length) remaining

/-- `Game.nextTurn`. -/
def nextTurn (g : GameSt) (now : Int) : Except String GameSt :=
  let activePlayers := g.players.filter fun p => p.isActive && !p.hasFolded
  if activePlayers.length = 1 then .ok (handleWinner g)
  else nextTurnLoop g now ((g.currentPlayerIndex + 1) % g.players.length) g.players.length

/-- Mutation of the player object returned by `players.find(p => p.id === playerId)`:
the first list entry with that id is replaced. -/
def updateFirstById (l : List Player) (pid : String) (f : Player → Player) : List Player :=
  match l with
  | [] => []
  | p :: ps => if p.id == pid then f p :: ps else p :: updateFirstById ps pid f

/-- The shared `case 'bet': case 'raise':` body of `handleAction`. -/
def betRaiseCase (g : GameSt) (playerId : String) (player : Player) (actionName : String)
    (amount : Option Int) : Except String GameSt :=
  match amount with
  | none => .error "Bet/raise amount must be specified and positive"
  | some a =>
    if a ≤ 0 then .error "Bet/raise amount must be specified and positive"
    else
      let toCall := g.currentBet - player.currentBet
      let totalBet := toCall + a
      let allIn := totalBet ≥ player.stack
      let raiseSize := a
      let minimumRaise := getMinimumRaise g
      if ¬ allIn ∧ raiseSize < minimumRaise then
        .error ("Minimum " ++ actionName ++ " is $" ++ toString minimumRaise)
      else if allIn then do
        let (betAmount, p') ← player.bet player.stack
        let g := { g with players := updateFirstById g.players playerId fun _ => p',
                          pot := g.pot + betAmount }
        let newBet := p'.currentBet
        if newBet > g.currentBet then
          .ok { g with lastRaiseSize := newBet - g.currentBet, currentBet := newBet,
                       lastRaiserIndex := (g.currentPlayerIndex : Int) }
        else .ok g
      else do
        let (betAmount, p') ← player.bet totalBet
        let g := { g with players := updateFirstById g.players playerId fun _ => p',
                          pot := g.pot + betAmount }
        let newBet := p'.currentBet
        .ok { g with lastRaiseSize := newBet - g.currentBet, currentBet := newBet,
                     lastRaiserIndex := (g.currentPlayerIndex : Int) }

/-- The `switch (action)` of `handleAction`. An `.error` is either an early
`return { valid: false, ... }` or a caught throw; in both cases the server never
persists the paired state (it returns before saving on `!result.valid`), so the
result state of the failing path is modelled as the entry state. -/
def processSwitch (g : GameSt) (playerId : String) (player : Player) (action : PlayerAction)
    (amount : Option Int) : Except String GameSt :=
  match action with
  | .fold => .ok { g with players := updateFirstById g.players playerId Player.fold }
  | .check =>
      if player.currentBet < g.currentBet then .error "Cannot check, must call or raise"
      else .ok g
  | .call => do
      let toCall := g.currentBet - player.currentBet
      let (betAmount, p') ← player.bet toCall
      .ok { g with players := updateFirstById g.players playerId fun _ => p',
                   pot := g.pot + betAmount }
  | .bet => betRaiseCase g playerId player "bet" amount
  | .raise => betRaiseCase g playerId player "raise" amount
  | .allin => do
      let (betAmount, p') ← player.bet player.stack
      let g := { g with players := updateFirstById g.players playerId fun _ => p',
                        pot := g.pot + betAmount }
      let newBet := p'.currentBet
      if newBet > g.currentBet then
        .ok { g with lastRaiseSize := newBet - g.currentBet, currentBet := newBet,
                     lastRaiserIndex := (g.currentPlayerIndex : Int) }
      else .ok g

/-- The try-block of `handleAction` after the guards: process the action, mark the
actor as having acted this round, move to the next turn. -/
def tryBody (g : GameSt) (now : Int) (playerId : String) (player : Player)
    (action : PlayerAction) (amount : Option Int) : Except String GameSt := do
  let g' ← processSwitch g playerId player action amount
  nextTurn { g' with playersActedThisRound := setAdd g'.playersActedThisRound playerId } now

/-- `Game.handleAction`. The top-level `.error` is an uncaught JS exception
(`players[currentPlayerIndex]` undefined before the try-block). -/
def handleAction (g : GameSt) (now : Int) (playerId : String) (action : PlayerAction)
    (amount : Option Int) : Except String (ActionResult × GameSt) :=
  match g.players.find? fun p => p.id == playerId with
  | none => .ok ({ valid := false, error := some "Player not found" }, g)
  | some player =>
    match g.players[g.currentPlayerIndex]? with
    | none => .error "TypeError"
    | some cur =>
      if cur.id ≠ playerId then
        .ok ({ valid := false, error := some "Not your turn" }, g)
      else if !player.isActive || player.hasFolded then
        .ok ({ valid := false, error := some "Player is not active in this hand" }, g)
      else if hasActionTimedOut g now then
        .ok ({ valid := false, error := some "Action timed out" }, g)
      else
        match tryBody g now playerId player action amount with
        | .ok g' => .ok ({ valid := true }, g')
        | .error msg => .ok ({ valid := false, error := some msg }, g)

/-- `Game.handleTimeout`: auto-check when the current player already matches the
current bet, otherwise auto-fold — both through `handleAction`. -/
def handleTimeout (g : GameSt) (now : Int) : Except String (ActionResult × GameSt) :=
  match g.players[g.currentPlayerIndex]? with
  | none => .error "TypeError"
  | some player =>
    if player.currentBet ≥ g.currentBet then handleAction g now player.id .check none
    else handleAction g now player.id .fold none

/-! ## Serialization (`Game.toJSON` / `Game.fromJSON`) -/

/-- The per-card JSON shape `{ rank, suit }`. -/
structure CardJ where
  rank : String
  suit : String
deriving DecidableEq, Repr

def cardToJSON (c : Card) : CardJ := { rank := c.rank, suit := c.suit }

/-- `new Card(c.rank, c.suit)` in `Game.fromJSON`: the `Card` constructor signature
is `(suit, rank)`, so the JSON rank is assigned to the suit field and vice versa. -/
def cardFromJSON (j : CardJ) : Card := { suit := j.rank, rank := j.suit }

structure PlayerJ where
  id : String
  name : String
  stack : Int
  bet : Int
  totalBetThisRound : Int
  holeCards : List CardJ
  hasFolded : Bool
  isAllIn : Bool
  isActive : Bool
  seatNumber : Option Int
deriving DecidableEq, Repr

structure GameJ where
  config : GameConfig
  players : List PlayerJ
  communityCards : List CardJ
  pot : Int
  stage : GameStage
  currentPlayerIndex : Nat
  currentBet : Int
  dealerIndex : Nat
  smallBlindIndex : Nat
  bigBlindIndex : Nat
  lastRaiserIndex : Int
  lastRaiseSize : Int
  playersActedThisRound : List String
  deckCards : List CardJ
  actionStartTime : Int
  currentActionPlayerId : Option String
deriving DecidableEq, Repr

def playerToJSON (p : Player) : PlayerJ :=
  { id := p.id, name := p.name, stack := p.stack, bet := p.currentBet,
    totalBetThisRound := p.totalBetThisRound, holeCards := p.holeCards.map cardToJSON,
    hasFolded := p.hasFolded, isAllIn := p.isAllIn, isActive := p.isActive,
    seatNumber := p.seatNumber }

def gameToJSON (g : GameSt) : GameJ :=
  { config := g.config, players := g.players.map playerToJSON,
    communityCards := g.communityCards.map cardToJSON, pot := g.pot, stage := g.stage,
    currentPlayerIndex := g.currentPlayerIndex, currentBet := g.currentBet,
    dealerIndex := g.dealerIndex, smallBlindIndex := g.smallBlindIndex,
    bigBlindIndex := g.bigBlindIndex, lastRaiserIndex := g.lastRaiserIndex,
    lastRaiseSize := g.lastRaiseSize, playersActedThisRound := g.playersActedThisRound,
    deckCards := g.deck.map cardToJSON, actionStartTime := g.actionStartTime,
    currentActionPlayerId := g.currentActionPlayerId }

def playerFromJSON (j : PlayerJ) : Player :=
  { Player.mkNew j.id j.name j.stack j.seatNumber with
      currentBet := j.bet, totalBetThisRound := j.totalBetThisRound,
      hasFolded := j.hasFolded, isAllIn := j.isAllIn, isActive := j.isActive,
      holeCards := j.holeCards.map cardFromJSON }

def gameFromJSON (j : GameJ) : GameSt :=
  { config := j.config,
    players := j.players.map playerFromJSON,
    communityCards := j.communityCards.map cardFromJSON,
    pot := j.pot, stage := j.stage, currentPlayerIndex := j.currentPlayerIndex,
    currentBet := j.currentBet, dealerIndex := j.dealerIndex,
    smallBlindIndex := j.smallBlindIndex, bigBlindIndex := j.bigBlindIndex,
    lastRaiserIndex := j.lastRaiserIndex, lastRaiseSize := j.lastRaiseSize,
    playersActedThisRound := j.playersActedThisRound,
    deck := j.deckCards.map cardFromJSON,
    -- `data.actionStartTime || 0` is the identity on integers
    actionStartTime := j.actionStartTime,
    -- `data.currentActionPlayerId || null` maps the falsy empty string to null
    currentActionPlayerId := match j.currentActionPlayerId with
      | some s => if s = "" then none else some s
      | none => none }

/-! ## The seat-player HTTP endpoint's admission checks (`PokerServer`) -/

/-- `POST /seat-player`: duplicate-name check, seat-occupied check, then the
hard-coded `maxSeats = 9` capacity check, then `game.addPlayer`. -/
def seatPlayerEndpoint (g : GameSt) (playerId username : String) (stack : Int)
    (seatNumber : Int) : Except String GameSt :=
  if (g.players.find? fun p => p.name == username).isSome then
    .error "Player already seated at this table"
  else if (g.players.find? fun p => p.seatNumber == some seatNumber).isSome then
    .error ("Seat " ++ toString seatNumber ++ " is already occupied")
  else if g.players.length ≥ 9 then
    .error "Table is full"
  else
    addPlayer g (Player.mkNew playerId username stack (some seatNumber))

/-! ## Reachability and invariants -/

/-- Sum of the seats' cumulative bets this hand. -/
def potSum (ps : List Player) : Int :=
  (ps.map Player.totalBetThisRound).sum

/-- A table about to start a hand: stage `waiting` and every seat bought in with a
positive stack (seats are created from positive buy-ins). -/
abbrev ValidSetup (g : GameSt) : Prop :=
  g.stage = .waiting ∧ ∀ p ∈ g.players, 0 < p.stack

/-- Engine states of one hand: the state `startHand` produces, closed under admitted
(`valid = true`) actions. The server persists exactly these states (it returns before
saving whenever `!result.valid`). -/
inductive Reachable : GameSt → Prop
  | start (g0 : GameSt) (shuffled : List Card) (now : Int) (g1 : GameSt) :
      ValidSetup g0 → startHand g0 shuffled now = .ok g1 → Reachable g1
  | step (g : GameSt) (now : Int) (pid : String) (act : PlayerAction) (amt : Option Int)
      (res : ActionResult) (g' : GameSt) :
      Reachable g → handleAction g now pid act amt = .ok (res, g') → res.valid = true →
      Reachable g'

/-- Per-seat facts that hold at every reachable point. -/
abbrev PBase (p : Player) : Prop :=
  0 ≤ p.stack ∧ 0 ≤ p.totalBetThisRound ∧ (p.stack = 0 → p.isAllIn = true)

/-- Before the pot is awarded (stage not yet `complete`), an all-in seat's stack is 0. -/
abbrev PTight (p : Player) : Prop :=
  p.isAllIn = true → p.stack = 0

abbrev InvB (g : GameSt) : Prop :=
  (∀ p ∈ g.players, PBase p) ∧ g.pot = potSum g.players

abbrev Inv (g : GameSt) : Prop :=
  InvB g ∧ (g.stage ≠ .complete → ∀ p ∈ g.players, PTight p)

/-! ## Concrete scenario runs -/

def cfgHU : GameConfig := { smallBlind := 10, bigBlind := 20, initialStack := 1000 }

def alice : Player := Player.mkNew "A" "Alice" 1000 (some 1)

def bob : Player := Player.mkNew "B" "Bob" 1000 (some 2)

/-- Fresh two-player game: `new Game(cfg)`, `addPlayer(A)`, `addPlayer(B)`. -/
def huSeated : Except String GameSt := do
  let g ← addPlayer { config := cfgHU } alice
  addPlayer g bob

/-- The first `startHand`, with the identity shuffle (the reset deck order, one of the
outcomes of Fisher-Yates). -/
def huHand : Except String GameSt := do
  let g ← huSeated
  startHand g resetDeck 0

/-- The small blind's call on the first hand. -/
def huAfterCall : Except String (ActionResult × GameSt) := do
  let g ← huHand
  handleAction g 0 "B" .call none

def emptyGame : GameSt := { config := cfgHU }

def getOk (e : Except String GameSt) (d : GameSt) : GameSt :=
  match e with
  | .ok g => g
  | .error _ => d

/-- The heads-up state after the first `startHand` (as a plain state). -/
def gHU : GameSt := getOk huHand emptyGame

/-- Heads-up all-in hand: 100-chip stacks, small blind shoves, big blind calls; the
board runs out and the pot is awarded. -/
def cfgShort : GameConfig := { smallBlind := 10, bigBlind := 20, initialStack := 100 }

def allInRun : Except String GameSt := do
  let g ← addPlayer { config := cfgShort } (Player.mkNew "A" "Alice" 100 (some 1))
  let g ← addPlayer g (Player.mkNew "B" "Bob" 100 (some 2))
  let g ← startHand g resetDeck 0
  let (_, g) ← handleAction g 0 "B" .allin none
  let (_, g) ← handleAction g 0 "A" .call none
  pure g

def gAllIn : GameSt := getOk allInRun { config := cfgShort }

/-- A heads-up game with a 30-second action timeout, just after `startHand` at t=0. -/
def cfgTO : GameConfig :=
  { smallBlind := 10, bigBlind := 20, initialStack := 1000, actionTimeoutSeconds := some 30 }

def toHand : Except String GameSt := do
  let g ← addPlayer { config := cfgTO } (Player.mkNew "A" "Alice" 1000 (some 1))
  let g ← addPlayer g (Player.mkNew "B" "Bob" 1000 (some 2))
  startHand g resetDeck 0

def gTO : GameSt := getOk toHand { config := cfgTO }

def someDefaultPlayer : Player := Player.mkNew "" "" 0 none

/-- A non-flush wheel: A-2-3-4-5 in mixed suits. -/
def wheelHand : List Card :=
  [⟨"hearts", "A"⟩, ⟨"clubs", "2"⟩, ⟨"diamonds", "3"⟩, ⟨"spades", "4"⟩, ⟨"hearts", "5"⟩]

/-- A non-flush Broadway straight: A-K-Q-J-10 in mixed suits. -/
def broadwayHand : List Card :=
  [⟨"hearts", "A"⟩, ⟨"clubs", "K"⟩, ⟨"diamonds", "Q"⟩, ⟨"spades", "J"⟩, ⟨"hearts", "10"⟩]

/-- A third player trying to take seat 3 while the first heads-up hand is running
(seat 3 is not the next hand's big-blind index). -/
def carol : Player := Player.mkNew "C" "Carol" 1000 (some 3)

/-- A player already holding two hole cards. -/
def dealtPlayer : Player :=
  { Player.mkNew "p1" "Pat" 100 none with
      holeCards := [⟨"hearts", "2"⟩, ⟨"hearts", "3"⟩] }

/-- A waiting-stage game already holding ten seats. -/
def gTen : GameSt :=
  { config := cfgHU,
    players := (List.range 10).map fun i =>
      Player.mkNew ("p" ++ toString i) ("Player" ++ toString i) 1000 (some (i : Int)) }

/-- A waiting-stage game already holding nine seats. -/
def gNine : GameSt :=
  { config := cfgHU,
    players := (List.range 9).map fun i =>
      Player.mkNew ("p" ++ toString i) ("Player" ++ toString i) 1000 (some (i : Int)) }

/-- The seated two-player game before the first hand (as a plain state). -/
def gSeated : GameSt := getOk huSeated emptyGame

/-- The big blind trying to act first on the first hand. -/
def huACall : Except String (ActionResult × GameSt) := do
  let g ← huHand
  handleAction g 0 "A" .call none

/-- The small blind min-raising on the first hand. -/
def huRaise : Except String (ActionResult × GameSt) := do
  let g ← huHand
  handleAction g 0 "B" .raise (some 20)

def gHUraised : GameSt :=
  match huRaise with
  | .ok (_, g) => g
  | .error _ => emptyGame

/-- Carol trying to join at seat 3 during the first hand. -/
def huAddCarol : Except String GameSt := do
  let g ← huHand
  addPlayer g carol

/-- Intermediate states of the all-in run, for the reachability chain. -/
def gShortSeated : GameSt :=
  getOk
    (do
      let g ← addPlayer { config := cfgShort } (Player.mkNew "A" "Alice" 100 (some 1))
      addPlayer g (Player.mkNew "B" "Bob" 100 (some 2)))
    { config := cfgShort }

def gShortHand : GameSt := getOk (startHand gShortSeated resetDeck 0) { config := cfgShort }

def gShortShove : GameSt :=
  match handleAction gShortHand 0 "B" .allin none with
  | .ok (_, g) => g
  | .error _ => { config := cfgShort }

/-! ## Claim theorems -/

/-- C1: the JSON round trip does not preserve the game state. `Game.toJSON` writes
each card as `{rank, suit}` and `Game.fromJSON` rebuilds it with
`new Card(c.rank, c.suit)` against the constructor signature `(suit, rank)`, so in the
reachable heads-up state after `startHand` the first hole card `A of spades` comes back
as suit `"A"`, rank `"spades"`, and the round-tripped state differs from the original. -/
theorem c1_fromJSON_swaps_card_fields :
    (huHand.map fun g => g.players.head?.map fun p => p.holeCards.head?)
        = .ok (some (some ⟨"spades", "A"⟩))
  ∧ (huHand.map fun g =>
        (gameFromJSON (gameToJSON g)).players.head?.map fun p => p.holeCards.head?)
        = .ok (some (some ⟨"A", "spades"⟩))
  ∧ (huHand.map fun g => decide (gameFromJSON (gameToJSON g) = g)) = .ok false := by
  decide

/-- C3: on the non-flush wheel A-2-3-4-5 the evaluator returns category Straight but
tiebreakers `[14]` (the descending sort puts the Ace first and the Straight branch
reports `sorted[0]`), not `[5]` as the claim states; consequently the wheel compares
equal to a Broadway straight instead of below every higher straight. -/
theorem c3_wheel_tiebreaker_is_ace_high :
    (evaluate5Cards wheelHand).rank = STRAIGHT
  ∧ (evaluate5Cards wheelHand).tiebreakers = [14]
  ∧ (evaluate5Cards wheelHand).tiebreakers ≠ [5]
  ∧ compareHands (evaluate5Cards wheelHand) (evaluate5Cards broadwayHand) = 0 := by
  decide

/-- C4 counterexample: with config {sb 10, bb 20, stack 1000} and players A, B added in
that order, the first `startHand` rotates the dealer button first, so B (not A) is
dealer/small blind and acts first; A's attempted call is rejected "Not your turn". -/
theorem c4_counterexample :
    (huHand.map fun g =>
        ((g.players[g.dealerIndex]?).map Player.id,
         (g.players[g.currentPlayerIndex]?).map Player.id,
         g.pot, g.currentBet)) = .ok (some "B", some "B", 30, 20)
  ∧ (huACall.map fun rg => rg.1)
        = .ok { valid := false, error := some "Not your turn" } := by
  decide

/-- C4 (amended): B is dealer and small blind, A is big blind; pot 30,
currentBetToMatch 20, currentSeat B. B's call makes the pot 40 and B's stack 980, and
— because both blind posters were pre-marked as having acted — immediately completes
the preflop round: stage flop, 3 community cards, currentSeat B. -/
theorem c4_amended_heads_up_first_hand :
    (huHand.map fun g =>
        ((g.players[g.dealerIndex]?).map Player.id,
         (g.players[g.smallBlindIndex]?).map Player.id,
         (g.players[g.bigBlindIndex]?).map Player.id))
      = .ok (some "B", some "B", some "A")
  ∧ (huHand.map fun g =>
        (g.pot, g.currentBet, (g.players[g.currentPlayerIndex]?).map Player.id))
      = .ok (30, 20, some "B")
  ∧ (huAfterCall.map fun rg =>
        (rg.1.valid, rg.2.pot, rg.2.players.map fun p => (p.id, p.stack)))
      = .ok (true, 40, [("A", 980), ("B", 980)])
  ∧ (huAfterCall.map fun rg =>
        (rg.2.stage, rg.2.communityCards.length,
         (rg.2.players[rg.2.currentPlayerIndex]?).map Player.id))
      = .ok (.flop, 3, some "B") := by
  decide

/-- C5 counterexample: during the first heads-up hand (stage preflop), Carol's seat 3
is not the next hand's big-blind index, and `addPlayer` rejects her with a thrown
error instead of admitting her as inactive. -/
theorem c5_counterexample_midhand_join_rejected :
    (huHand.map fun g => g.stage) = .ok .preflop
  ∧ (huHand.map fun g => (canPlayerJoinAtSeat g 3).canJoin) = .ok false
  ∧ huAddCarol = .error "You can only join when you would be the big blind. Wait for the current hand to finish and try a different seat or timing." := by
  decide

/-- C6 counterexample: in the heads-up hand both blind posters are already in
`playersActedThisRound`; after B's admitted raise the set is `["B", "A"]` — it still
contains A, so it is not reset to exactly `{B}`. -/
theorem c6_counterexample_raise_keeps_acted_set :
    (huRaise.map fun rg => (rg.1.valid, rg.2.playersActedThisRound)) = .ok (true, ["B", "A"])
  ∧ (huRaise.map fun rg => decide (rg.2.playersActedThisRound = ["B"])) = .ok false
  ∧ ("A" : String) ≠ "B" := by
  decide

/-- C9 counterexample: `dealHoleCards` on a player that already holds two hole cards
does not fail — it succeeds and silently replaces them. -/
theorem c9_counterexample_redeal_overwrites :
    dealtPlayer.holeCards = [⟨"hearts", "2"⟩, ⟨"hearts", "3"⟩]
  ∧ dealtPlayer.dealHoleCards [⟨"clubs", "4"⟩, ⟨"clubs", "5"⟩]
      = .ok { dealtPlayer with holeCards := [⟨"clubs", "4"⟩, ⟨"clubs", "5"⟩] } := by
  decide

/-- C9 (amended): `dealHoleCards` succeeds on exactly-two-card inputs, replacing
whatever hole cards were present, and fails only when the number of cards is not 2. -/
theorem c9_amended_dealHoleCards (p : Player) (cards : List Card) :
    (cards.length = 2 → p.dealHoleCards cards = .ok { p with holeCards := cards })
  ∧ (cards.length ≠ 2 →
      p.dealHoleCards cards = .error "Player must receive exactly 2 hole cards") := by
  constructor <;> intro h <;> simp [Player.dealHoleCards, h]

/-- C9 witness: the amended theorem applied to the already-dealt player. -/
theorem c9_amended_dealHoleCards_witness :
    dealtPlayer.dealHoleCards [⟨"spades", "9"⟩, ⟨"spades", "10"⟩]
      = .ok { dealtPlayer with holeCards := [⟨"spades", "9"⟩, ⟨"spades", "10"⟩] } :=
  (c9_amended_dealHoleCards dealtPlayer [⟨"spades", "9"⟩, ⟨"spades", "10"⟩]).1 (by decide)

/-- C2: `handleTimeout` delegates to `handleAction`, which itself re-checks
`hasActionTimedOut` and rejects — so whenever the deadline has actually elapsed for
the current seat (an active, unfolded player), the timeout handler's auto-check /
auto-fold is NOT admitted: it returns `valid = false` with "Action timed out" and
leaves the state unchanged, instead of advancing like the player's own action would. -/
theorem c2_timeout_handler_self_rejects (g : GameSt) (now : Int) (cur p : Player)
    (hcur : g.players[g.currentPlayerIndex]? = some cur)
    (hfind : (g.players.find? fun q => q.id == cur.id) = some p)
    (hact : p.isActive = true) (hfold : p.hasFolded = false)
    (hto : hasActionTimedOut g now = true) :
    handleTimeout g now = .ok ({ valid := false, error := some "Action timed out" }, g) := by
  have key : ∀ (act : PlayerAction) (amt : Option Int),
      handleAction g now cur.id act amt
        = .ok ({ valid := false, error := some "Action timed out" }, g) := by
    intro act amt
    simp only [handleAction, hfind, hcur]
    simp [hact, hfold, hto]
  simp only [handleTimeout, hcur]
  split <;> exact key _ _

/-- C2 witness: in the 30-second-timeout heads-up game, 30 seconds after the hand
started the timeout handler returns invalid "Action timed out". -/
theorem c2_timeout_handler_self_rejects_witness :
    handleTimeout gTO 30000
      = .ok ({ valid := false, error := some "Action timed out" }, gTO) :=
  c2_timeout_handler_self_rejects gTO 30000
    ((gTO.players[gTO.currentPlayerIndex]?).getD someDefaultPlayer)
    ((gTO.players.find? fun q =>
        q.id == ((gTO.players[gTO.currentPlayerIndex]?).getD someDefaultPlayer).id).getD
      someDefaultPlayer)
    (by decide) (by decide) (by decide) (by decide) (by decide)

/-- C7 counterexample: a reachable completed hand (both seats all-in, board run out,
pot awarded) in which seat A holds the whole 200-chip pot — stack 200 > 0 — while its
all-in flag is still set, refuting `stack = 0 ⇔ all-in` after the pot award. -/
theorem c7_counterexample_allin_winner_flag :
    Reachable gAllIn
  ∧ gAllIn.stage = .complete
  ∧ (gAllIn.players.map fun p => (p.id, p.stack, p.isAllIn))
      = [("A", 200, true), ("B", 0, true)] := by
  refine ⟨?_, by decide, by decide⟩
  have h1 : Reachable gShortHand :=
    Reachable.start gShortSeated resetDeck 0 gShortHand ⟨by decide, by decide⟩ (by decide)
  have h2 : Reachable gShortShove :=
    Reachable.step gShortHand 0 "B" .allin none { valid := true, error := none } gShortShove
      h1 (by decide) rfl
  exact Reachable.step gShortShove 0 "A" .call none { valid := true, error := none } gAllIn
    h2 (by decide) rfl

/-- C5 (amended): under capacity, `addPlayer` during a running hand REJECTS a seat
whose index is not the computed next big-blind index (it throws the join-check
reason), admits a big-blind-index seat flagged inactive for the current hand, and in
waiting/complete stage admits any seat. -/
theorem c5_amended_addPlayer_join_rule (g : GameSt) (p : Player)
    (hcap : g.players.length < 10) :
    (g.stage ≠ .waiting ∧ g.stage ≠ .complete →
       ((canPlayerJoinAtSeat g (p.seatNumber.getD 0)).canJoin = false →
          addPlayer g p = .error (canPlayerJoinAtSeat g (p.seatNumber.getD 0)).reason)
     ∧ ((canPlayerJoinAtSeat g (p.seatNumber.getD 0)).canJoin = true →
          addPlayer g p = .ok { g with players := sortBySeat (g.players ++ [p.setInactive]) }))
  ∧ ((g.stage = .waiting ∨ g.stage = .complete) →
       addPlayer g p = .ok { g with players := sortBySeat (g.players ++ [p]) }) := by
  unfold addPlayer
  have hcap' : ¬ g.players.length ≥ 10 := by omega
  rw [if_neg hcap']
  constructor
  · intro hmid
    rw [if_pos hmid]
    constructor
    · intro hno
      simp [hno]
    · intro hyes
      simp [hyes]
  · intro hwc
    rw [if_neg (by tauto)]

/-- C5 witness: Carol's mid-hand non-big-blind seat 3 is rejected with the
join-check reason. -/
theorem c5_amended_addPlayer_join_rule_witness :
    addPlayer gHU carol = .error (canPlayerJoinAtSeat gHU (carol.seatNumber.getD 0)).reason :=
  ((c5_amended_addPlayer_join_rule gHU carol (by decide)).1 (by decide)).1 (by decide)

lemma insertBySeat_length (x : Player) (l : List Player) :
    (insertBySeat x l).length = l.length + 1 := by
  induction l with
  | nil => rfl
  | cons y ys ih => simp only [insertBySeat]; split <;> simp [ih]

lemma sortBySeat_length (l : List Player) : (sortBySeat l).length = l.length := by
  suffices h : ∀ acc : List Player,
      (l.foldl (fun acc x => insertBySeat x acc) acc).length = acc.length + l.length by
    simpa using h []
  induction l with
  | nil => simp
  | cons y ys ih =>
    intro acc
    rw [List.foldl_cons, ih, insertBySeat_length, List.length_cons]
    omega

lemma canJoin_false_reason (g : GameSt) (s : Int)
    (h : (canPlayerJoinAtSeat g s).canJoin = false) :
    (canPlayerJoinAtSeat g s).reason
      = "You can only join when you would be the big blind. Wait for the current hand to finish and try a different seat or timing." := by
  simp only [canPlayerJoinAtSeat] at h ⊢
  split_ifs at h ⊢ with h1 h2 h3
  all_goals rfl

lemma addPlayer_ok_length (g : GameSt) (p : Player) (g' : GameSt)
    (h : addPlayer g p = .ok g') : g'.players.length = g.players.length + 1 := by
  simp only [addPlayer] at h
  split_ifs at h <;> cases h <;> simp [sortBySeat_length]

/-- C10: `Game.addPlayer` fails with "Maximum 10 players allowed" exactly when the
game already holds 10 (or more) players, and any successful `addPlayer` leaves at most
10 seats; independently, the seat-player endpoint rejects a fresh name and seat with
"Table is full" as soon as 9 players are seated, and any game it successfully seats
into holds at most 9 players — so a 10th engine seat is unreachable through it. -/
theorem c10_capacity_limits (g : GameSt) (p : Player) (pid uname : String)
    (stk seat : Int) :
    (addPlayer g p = .error "Maximum 10 players allowed" ↔ 10 ≤ g.players.length)
  ∧ (∀ g', addPlayer g p = .ok g' → g'.players.length ≤ 10)
  ∧ (9 ≤ g.players.length →
       (∀ q ∈ g.players, q.name ≠ uname) →
       (∀ q ∈ g.players, q.seatNumber ≠ some seat) →
       seatPlayerEndpoint g pid uname stk seat = .error "Table is full")
  ∧ (∀ g', seatPlayerEndpoint g pid uname stk seat = .ok g' → g'.players.length ≤ 9) := by
  refine ⟨⟨?_, ?_⟩, ?_, ?_, ?_⟩
  · intro h
    by_contra hlt
    simp only [addPlayer] at h
    rw [if_neg (by omega)] at h
    split_ifs at h with hmid hjoin
    have hreason := canJoin_false_reason g (p.seatNumber.getD 0) (by simpa using hjoin)
    rw [hreason] at h
    simp at h
  · intro h
    unfold addPlayer
    rw [if_pos h]
  · intro g' h
    have hlen := addPlayer_ok_length g p g' h
    have : ¬ g.players.length ≥ 10 := by
      intro hge
      unfold addPlayer at h
      rw [if_pos hge] at h
      cases h
    omega
  · intro hge hname hseat
    unfold seatPlayerEndpoint
    rw [if_neg ?_, if_neg ?_, if_pos hge]
    · simp only [Option.isSome_iff_exists]
      rintro ⟨q, hq⟩
      have := List.find?_some hq
      have hmem := List.mem_of_find?_eq_some hq
      exact hseat q hmem (by simpa using this)
    · simp only [Option.isSome_iff_exists]
      rintro ⟨q, hq⟩
      have := List.find?_some hq
      have hmem := List.mem_of_find?_eq_some hq
      exact hname q hmem (by simpa using this)
  · intro g' h
    simp only [seatPlayerEndpoint] at h
    split_ifs at h with h1 h2 h3
    have hlen := addPlayer_ok_length _ _ _ h
    omega

/-- C10 witness: a full 10-seat game rejects with "Maximum 10 players allowed", and the
endpoint rejects a fresh player with "Table is full" at 9 seats. -/
theorem c10_capacity_limits_witness :
    addPlayer gTen alice = .error "Maximum 10 players allowed"
  ∧ seatPlayerEndpoint gNine "px" "Xena" 1000 100 = .error "Table is full" :=
  ⟨(c10_capacity_limits gTen alice "px" "Xena" 1000 100).1.mpr (by decide),
   (c10_capacity_limits gNine alice "px" "Xena" 1000 100).2.2.1 (by decide) (by decide)
     (by decide)⟩


lemma startActionTimer_fields (g : GameSt) (now : Int) (g' : GameSt)
    (h : startActionTimer g now = .ok g') :
    g'.stage = g.stage ∧ g'.playersActedThisRound = g.playersActedThisRound := by
  unfold startActionTimer at h
  split at h
  · cases h
  · injection h with h
    subst h
    exact ⟨rfl, rfl⟩

lemma showdown_stage (g : GameSt) (g' : GameSt) (h : showdown g = .ok g') :
    g'.stage = .complete := by
  simp only [showdown, bind, Except.bind] at h
  split at h
  · cases h
  · split at h
    · cases h
    · injection h with h
      subst h
      rfl

lemma dealFlop_stage (g : GameSt) (g' : GameSt) (h : dealFlop g = .ok g') :
    g'.stage = .flop := by
  simp only [dealFlop, bind, Except.bind] at h
  split at h
  · cases h
  · injection h with h
    subst h
    rfl

lemma dealTurn_stage (g : GameSt) (g' : GameSt) (h : dealTurn g = .ok g') :
    g'.stage = .turn := by
  simp only [dealTurn, bind, Except.bind] at h
  split at h
  · cases h
  · injection h with h
    subst h
    rfl

lemma dealRiver_stage (g : GameSt) (g' : GameSt) (h : dealRiver g = .ok g') :
    g'.stage = .river := by
  simp only [dealRiver, bind, Except.bind] at h
  split at h
  · cases h
  · injection h with h
    subst h
    rfl

lemma advanceStage_stage_ne (g : GameSt) (now : Int) (g' : GameSt)
    (hstage : g.stage = .preflop ∨ g.stage = .flop ∨ g.stage = .turn ∨ g.stage = .river)
    (h : advanceStage g now = .ok g') : g'.stage ≠ g.stage := by
  simp only [advanceStage, bind, Except.bind] at h
  split at h
  · -- all-in runout branch: ends in showdown
    split at h
    · cases h
    · have := showdown_stage _ _ h
      rcases hstage with h1 | h1 | h1 | h1 <;> rw [this, h1] <;> decide
  · split at h
    · cases h
    · split at h
      · -- wrap-around: showdown
        have := showdown_stage _ _ h
        rcases hstage with h1 | h1 | h1 | h1 <;> rw [this, h1] <;> decide
      · -- found first player: deal per stage then start timer
        rcases hstage with h1 | h1 | h1 | h1 <;>
          rw [h1] <;>
          simp only [h1] at h <;>
          ( split at h
            · cases h
            · rename_i g3 hdeal
              have h4 := startActionTimer_fields _ now g' h
              first
                | (have h5 := dealFlop_stage _ _ hdeal; rw [h4.1, h5]; decide)
                | (have h5 := dealTurn_stage _ _ hdeal; rw [h4.1, h5]; decide)
                | (have h5 := dealRiver_stage _ _ hdeal; rw [h4.1, h5]; decide)
                | (have h5 := showdown_stage _ _ hdeal; rw [h4.1, h5]; decide))

lemma nextTurnLoop_acted (g : GameSt) (now : Int)
    (hstage : g.stage = .preflop ∨ g.stage = .flop ∨ g.stage = .turn ∨ g.stage = .river) :
    ∀ fuel i g', nextTurnLoop g now i fuel = .ok g' → g'.stage = g.stage →
      g'.playersActedThisRound = g.playersActedThisRound := by
  intro fuel
  induction fuel with
  | zero =>
    intro i g' h hsame
    simp only [nextTurnLoop] at h
    exact absurd hsame (advanceStage_stage_ne g now g' hstage h)
  | succ n ih =>
    intro i g' h hsame
    simp only [nextTurnLoop] at h
    split at h
    · cases h
    · split at h
      · split at h
        · exact absurd hsame (advanceStage_stage_ne g now g' hstage h)
        · exact (startActionTimer_fields _ now g' h).2
      · exact ih _ g' h hsame

lemma nextTurn_acted (g : GameSt) (now : Int) (g' : GameSt)
    (hstage : g.stage = .preflop ∨ g.stage = .flop ∨ g.stage = .turn ∨ g.stage = .river)
    (h : nextTurn g now = .ok g') (hsame : g'.stage = g.stage) :
    g'.playersActedThisRound = g.playersActedThisRound := by
  simp only [nextTurn] at h
  split at h
  · injection h with h
    subst h
    rcases hstage with h1 | h1 | h1 | h1 <;> rw [h1] at hsame <;> simp [handleWinner] at hsame
  · exact nextTurnLoop_acted g now hstage _ _ g' h hsame

lemma betRaiseCase_fields (g : GameSt) (pid : String) (player : Player) (an : String)
    (amt : Option Int) (g₂ : GameSt) (h : betRaiseCase g pid player an amt = .ok g₂) :
    g₂.playersActedThisRound = g.playersActedThisRound ∧ g₂.stage = g.stage := by
  simp only [betRaiseCase, bind, Except.bind] at h
  repeat' split at h
  all_goals try cases h
  all_goals exact ⟨rfl, rfl⟩

lemma allinCase_fields (g : GameSt) (pid : String) (player : Player)
    (amt : Option Int) (g₂ : GameSt) (h : processSwitch g pid player .allin amt = .ok g₂) :
    g₂.playersActedThisRound = g.playersActedThisRound ∧ g₂.stage = g.stage := by
  simp only [processSwitch, bind, Except.bind] at h
  repeat' split at h
  all_goals try cases h
  all_goals exact ⟨rfl, rfl⟩

/-- C6 (amended): an admitted bet, raise or all-in does not reset
`playersActedThisRound` to the aggressor alone: when the action does not end the
betting round (the stage is unchanged and was a betting stage), the post-state's set
is exactly the pre-state's set with the actor added (`setAdd`), prior actors
included; the aggressor is tracked via `lastRaiserIndex` instead. -/
theorem c6_amended_bet_raise_acted (g : GameSt) (now : Int) (pid : String) (act : PlayerAction)
    (amt : Option Int) (res : ActionResult) (g' : GameSt)
    (hba : act = .bet ∨ act = .raise ∨ act = .allin)
    (h : handleAction g now pid act amt = .ok (res, g'))
    (hv : res.valid = true)
    (hstage : g.stage = .preflop ∨ g.stage = .flop ∨ g.stage = .turn ∨ g.stage = .river)
    (hsame : g'.stage = g.stage) :
    g'.playersActedThisRound = setAdd g.playersActedThisRound pid := by
  simp only [handleAction] at h
  split at h
  · injection h with h
    injection h with h1 h2
    rw [← h1] at hv
    simp at hv
  · split at h
    · cases h
    · split_ifs at h with hc1 hc2 hc3
      · injection h with h
        injection h with h1 h2
        rw [← h1] at hv
        simp at hv
      · injection h with h
        injection h with h1 h2
        rw [← h1] at hv
        simp at hv
      · injection h with h
        injection h with h1 h2
        rw [← h1] at hv
        simp at hv
      · -- past the guards: the try-block
        split at h
        · -- tryBody ok
          rename_i g2 htry
          injection h with h
          injection h with h1 h2
          subst h2
          rcases hba with hb | hb | hb <;> subst hb
          · simp only [tryBody, processSwitch, bind, Except.bind] at htry
            split at htry
            · cases htry
            · rename_i gmid hbr
              have hf := betRaiseCase_fields _ _ _ _ _ _ hbr
              have hmid : ({ gmid with playersActedThisRound := setAdd gmid.playersActedThisRound pid }).stage = g.stage := hf.2
              have hnt := nextTurn_acted _ now _ (by rw [hmid]; exact hstage) htry (by rw [hmid]; exact hsame)
              rw [hnt]
              show setAdd gmid.playersActedThisRound pid = setAdd g.playersActedThisRound pid
              rw [hf.1]
          · simp only [tryBody, processSwitch, bind, Except.bind] at htry
            split at htry
            · cases htry
            · rename_i gmid hbr
              have hf := betRaiseCase_fields _ _ _ _ _ _ hbr
              have hmid : ({ gmid with playersActedThisRound := setAdd gmid.playersActedThisRound pid }).stage = g.stage := hf.2
              have hnt := nextTurn_acted _ now _ (by rw [hmid]; exact hstage) htry (by rw [hmid]; exact hsame)
              rw [hnt]
              show setAdd gmid.playersActedThisRound pid = setAdd g.playersActedThisRound pid
              rw [hf.1]
          · simp only [tryBody, bind, Except.bind] at htry
            split at htry
            · cases htry
            · rename_i gmid hal
              have hf := allinCase_fields _ _ _ _ _ hal
              have hmid : ({ gmid with playersActedThisRound := setAdd gmid.playersActedThisRound pid }).stage = g.stage := hf.2
              have hnt := nextTurn_acted _ now _ (by rw [hmid]; exact hstage) htry (by rw [hmid]; exact hsame)
              rw [hnt]
              show setAdd gmid.playersActedThisRound pid = setAdd g.playersActedThisRound pid
              rw [hf.1]
        · injection h with h
          injection h with h1 h2
          rw [← h1] at hv
          simp at hv

/-- C6 witness: B's admitted min-raise on the first heads-up hand, and B's admitted
all-in shove on the short-stack hand, both extend the acted set (which already held
both blind posters) instead of resetting it. -/
theorem c6_amended_bet_raise_acted_witness :
    gHUraised.playersActedThisRound = setAdd gHU.playersActedThisRound "B"
  ∧ gShortShove.playersActedThisRound = setAdd gShortHand.playersActedThisRound "B" :=
  ⟨c6_amended_bet_raise_acted gHU 0 "B" .raise (some 20) { valid := true, error := none }
      gHUraised (Or.inr (Or.inl rfl)) (by decide) rfl (Or.inl (by decide)) (by decide),
   c6_amended_bet_raise_acted gShortHand 0 "B" .allin none { valid := true, error := none }
      gShortShove (Or.inr (Or.inr rfl)) (by decide) rfl (Or.inl (by decide)) (by decide)⟩


/-! Basic facts about `Player.bet` and the per-seat predicates. -/

lemma bet_preserves (p : Player) (a amt : Int) (p' : Player)
    (h : p.bet a = .ok (amt, p')) (hp : PBase p) :
    PBase p' ∧ p'.totalBetThisRound = p.totalBetThisRound + amt ∧ 0 ≤ amt
    ∧ (PTight p → PTight p') := by
  obtain ⟨hs, ht, hz⟩ := hp
  rcases lt_or_ge a 0 with h1 | h1
  · rw [Player.bet, if_pos h1] at h
    cases h
  · rcases le_or_lt p.stack a with h2 | h2
    · rw [Player.bet, if_neg (not_lt.mpr h1), if_pos h2] at h
      injection h with h
      injection h with ha hp'
      subst ha
      subst hp'
      refine ⟨⟨?_, ?_, ?_⟩, rfl, ?_, ?_⟩
      · show (0:Int) ≤ 0
        exact Int.le_refl 0
      · show (0:Int) ≤ p.totalBetThisRound + p.stack
        omega
      · intro _
        rfl
      · exact hs
      · intro _ _
        rfl
    · rw [Player.bet, if_neg (not_lt.mpr h1), if_neg (not_le.mpr h2)] at h
      injection h with h
      injection h with ha hp'
      subst ha
      subst hp'
      refine ⟨⟨?_, ?_, ?_⟩, rfl, ?_, ?_⟩
      · show (0:Int) ≤ p.stack - a
        omega
      · show (0:Int) ≤ p.totalBetThisRound + a
        omega
      · intro h0
        have h0' : p.stack - a = 0 := h0
        exact absurd h0' (by omega)
      · exact h1
      · intro htight hall
        have h0 := htight hall
        show p.stack - a = 0
        omega

lemma potSum_nonneg (l : List Player) (h : ∀ p ∈ l, PBase p) : 0 ≤ potSum l := by
  induction l with
  | nil => simp [potSum]
  | cons p ps ih =>
    have hp := h p (by simp)
    have hps := ih fun q hq => h q (by simp [hq])
    simp only [potSum, List.map_cons, List.sum_cons] at *
    have := hp.2.1
    omega

lemma addChips_PBase (p : Player) (c : Int) (hp : PBase p) (hc : 0 ≤ c) :
    PBase (p.addChips c) := by
  obtain ⟨hs, ht, hz⟩ := hp
  refine ⟨?_, ?_, ?_⟩
  · simp [Player.addChips]; omega
  · simpa [Player.addChips] using ht
  · intro h0
    simp [Player.addChips] at h0
    exact hz (by omega)

lemma potSum_cons (p : Player) (ps : List Player) :
    potSum (p :: ps) = p.totalBetThisRound + potSum ps := by
  simp [potSum]

lemma updateFirstById_forall {P : Player → Prop} (l : List Player) (pid : String)
    (f : Player → Player) (h : ∀ p ∈ l, P p) (hf : ∀ p ∈ l, P (f p)) :
    ∀ p ∈ updateFirstById l pid f, P p := by
  induction l with
  | nil => simp [updateFirstById]
  | cons q qs ih =>
    simp only [updateFirstById]
    split
    · intro p hp
      rcases List.mem_cons.mp hp with rfl | hp
      · exact hf q (by simp)
      · exact h p (by simp [hp])
    · intro p hp
      rcases List.mem_cons.mp hp with rfl | hp
      · exact h p (by simp)
      · exact ih (fun r hr => h r (by simp [hr])) (fun r hr => hf r (by simp [hr])) p hp

lemma updateFirstById_potSum (l : List Player) (pid : String) (q p' : Player)
    (hf : l.find? (fun p => p.id == pid) = some q) :
    potSum (updateFirstById l pid (fun _ => p'))
      = potSum l - q.totalBetThisRound + p'.totalBetThisRound := by
  induction l with
  | nil => cases hf
  | cons r rs ih =>
    cases hr : (r.id == pid) with
    | true =>
      simp only [List.find?, hr] at hf
      injection hf with hf
      subst hf
      simp only [updateFirstById, hr, if_true]
      rw [potSum_cons, potSum_cons]
      ring
    | false =>
      simp only [List.find?, hr] at hf
      simp only [updateFirstById, hr]
      rw [if_neg (by simp), potSum_cons, potSum_cons, ih hf]
      ring

lemma updateFirstById_potSum_same (l : List Player) (pid : String) (f : Player → Player)
    (hf : ∀ p, (f p).totalBetThisRound = p.totalBetThisRound) :
    potSum (updateFirstById l pid f) = potSum l := by
  induction l with
  | nil => rfl
  | cons r rs ih =>
    simp only [updateFirstById]
    split
    · rw [potSum_cons, potSum_cons, hf]
    · rw [potSum_cons, potSum_cons, ih]

lemma potSum_map_resetRound (l : List Player) :
    potSum (l.map Player.resetForNewRound) = potSum l := by
  induction l with
  | nil => rfl
  | cons p ps ih =>
    rw [List.map_cons, potSum_cons, potSum_cons, ih]
    rfl

lemma dealHole_fields (p : Player) (cards : List Card) (p' : Player)
    (h : p.dealHoleCards cards = .ok p') : p' = { p with holeCards := cards } := by
  unfold Player.dealHoleCards at h
  split_ifs at h
  injection h with h
  exact h.symm

lemma dealHoleLoop_inv (ps : List Player) (deck : List Card) (ps' : List Player)
    (deck' : List Card) (h : dealHoleLoop ps deck = .ok (ps', deck'))
    (hB : ∀ p ∈ ps, PBase p) (hT : ∀ p ∈ ps, PTight p) :
    (∀ p ∈ ps', PBase p) ∧ (∀ p ∈ ps', PTight p) ∧ potSum ps' = potSum ps := by
  induction ps generalizing deck ps' deck' with
  | nil =>
    simp only [dealHoleLoop] at h
    injection h with h
    injection h with h1 h2
    subst h1
    exact ⟨by simp, by simp, rfl⟩
  | cons p ps ih =>
    simp only [dealHoleLoop, bind, Except.bind] at h
    split at h
    · cases h
    · rename_i pr1 hdeal
      split at h
      · cases h
      · rename_i p2 hhole
        split at h
        · cases h
        · rename_i pr2 hrec
          injection h with h
          injection h with h1 h2
          subst h1
          have hp2 := dealHole_fields p pr1.1 p2 hhole
          subst hp2
          have hih := ih pr1.2 pr2.1 pr2.2 hrec
            (fun r hr => hB r (by simp [hr])) (fun r hr => hT r (by simp [hr]))
          refine ⟨?_, ?_, ?_⟩
          · intro r hr
            rcases List.mem_cons.mp hr with rfl | hr
            · exact hB p (by simp)
            · exact hih.1 r hr
          · intro r hr
            rcases List.mem_cons.mp hr with rfl | hr
            · exact hT p (by simp)
            · exact hih.2.1 r hr
          · rw [potSum_cons, potSum_cons, hih.2.2]

lemma potSum_set (l : List Player) (i : Nat) (q p' : Player) (h : l[i]? = some q) :
    potSum (l.set i p') = potSum l - q.totalBetThisRound + p'.totalBetThisRound := by
  induction l generalizing i with
  | nil => simp at h
  | cons r rs ih =>
    cases i with
    | zero =>
      simp only [List.getElem?_cons_zero] at h
      injection h with h
      subst h
      simp only [List.set]
      rw [potSum_cons, potSum_cons]
      ring
    | succ n =>
      simp only [List.getElem?_cons_succ] at h
      simp only [List.set]
      rw [potSum_cons, potSum_cons, ih n h]
      ring

lemma betAtIndex_inv (l : List Player) (i : Nat) (a amt : Int) (l' : List Player)
    (h : betAtIndex l i a = .ok (amt, l'))
    (hB : ∀ p ∈ l, PBase p) (hT : ∀ p ∈ l, PTight p) :
    (∀ p ∈ l', PBase p) ∧ (∀ p ∈ l', PTight p) ∧ potSum l' = potSum l + amt ∧ 0 ≤ amt := by
  unfold betAtIndex at h
  split at h
  · cases h
  · rename_i q hq
    simp only [bind, Except.bind] at h
    split at h
    · cases h
    · rename_i pr hbet
      injection h with h
      injection h with h1 h2
      subst h1
      subst h2
      have hqmem : q ∈ l := by
        have := List.getElem?_eq_some_iff.mp hq
        obtain ⟨hlt, hget⟩ := this
        exact hget ▸ List.getElem_mem hlt
      have hbb := bet_preserves q a pr.1 pr.2 (by rw [hbet]) (hB q hqmem)
      refine ⟨?_, ?_, ?_, hbb.2.2.1⟩
      · intro p hp
        rcases List.mem_or_eq_of_mem_set hp with hp | rfl
        · exact hB p hp
        · exact hbb.1
      · intro p hp
        rcases List.mem_or_eq_of_mem_set hp with hp | rfl
        · exact hT p hp
        · exact hbb.2.2.2 (hT q hqmem)
      · rw [potSum_set l i q pr.2 hq, hbb.2.1]
        ring

lemma postAntes_inv (a : Int) (ps : List Player) (pot : Int) (ps' : List Player)
    (pot' : Int) (h : postAntes a ps pot = .ok (ps', pot'))
    (hB : ∀ p ∈ ps, PBase p) (hT : ∀ p ∈ ps, PTight p) :
    (∀ p ∈ ps', PBase p) ∧ (∀ p ∈ ps', PTight p)
    ∧ pot' - potSum ps' = pot - potSum ps := by
  induction ps generalizing pot ps' pot' with
  | nil =>
    simp only [postAntes] at h
    injection h with h
    injection h with h1 h2
    subst h1
    subst h2
    exact ⟨by simp, by simp, rfl⟩
  | cons p psr ih =>
    simp only [postAntes, bind, Except.bind] at h
    split at h
    · cases h
    · rename_i pr hbet
      split at h
      · cases h
      · rename_i pr2 hrec
        injection h with h
        injection h with h1 h2
        subst h1
        subst h2
        have hbb := bet_preserves p a pr.1 pr.2 (by rw [hbet]) (hB p (by simp))
        have hih := ih (pot + pr.1) pr2.1 pr2.2 hrec
          (fun r hr => hB r (by simp [hr])) (fun r hr => hT r (by simp [hr]))
        refine ⟨?_, ?_, ?_⟩
        · intro r hr
          rcases List.mem_cons.mp hr with rfl | hr
          · exact hbb.1
          · exact hih.1 r hr
        · intro r hr
          rcases List.mem_cons.mp hr with rfl | hr
          · exact hbb.2.2.2 (hT p (by simp))
          · exact hih.2.1 r hr
        · rw [potSum_cons, potSum_cons, hbb.2.1]
          have := hih.2.2
          omega

lemma resetHand_pred (p : Player) (h : 0 < p.stack) :
    PBase p.resetForNewHand ∧ PTight p.resetForNewHand := by
  refine ⟨⟨?_, ?_, ?_⟩, ?_⟩
  · show (0:Int) ≤ p.stack
    omega
  · show (0:Int) ≤ 0
    exact Int.le_refl 0
  · intro h0
    have h0' : p.stack = 0 := h0
    exact absurd h0' (by omega)
  · intro hall
    cases hall

lemma potSum_map_resetHand (l : List Player) :
    potSum (l.map Player.resetForNewHand) = 0 := by
  induction l with
  | nil => rfl
  | cons p ps ih =>
    rw [List.map_cons, potSum_cons, ih]
    show (0:Int) + 0 = 0
    ring

lemma startActionTimer_ok (g : GameSt) (now : Int) (g' : GameSt)
    (h : startActionTimer g now = .ok g') :
    g'.players = g.players ∧ g'.pot = g.pot ∧ g'.stage = g.stage := by
  unfold startActionTimer at h
  split at h
  · cases h
  · injection h with h
    subst h
    exact ⟨rfl, rfl, rfl⟩

lemma startHandBlinds_inv (g : GameSt) (now : Int) (g1 : GameSt)
    (hB : ∀ p ∈ g.players, PBase p) (hT : ∀ p ∈ g.players, PTight p)
    (hpot : g.pot = potSum g.players)
    (h : startHandBlinds g now = .ok g1) : Inv g1 := by
  simp only [startHandBlinds, bind, Except.bind] at h
  split at h
  · cases h
  · rename_i pr1 hsb
    split at h
    · cases h
    · rename_i pr2 hbb
      split at h
      · cases h
      · rename_i sbP hsbP
        split at h
        · cases h
        · rename_i bbP hbbP
          split at h
          · cases h
          · rename_i pr3 hloop
            have hat := startActionTimer_ok _ now g1 h
            have h1 := betAtIndex_inv g.players _ _ pr1.1 pr1.2 (by rw [hsb]) hB hT
            have h2 := betAtIndex_inv pr1.2 _ _ pr2.1 pr2.2 (by rw [hbb]) h1.1 h1.2.1
            have h3 := dealHoleLoop_inv pr2.2 _ pr3.1 pr3.2 (by rw [hloop]) h2.1 h2.2.1
            constructor
            · constructor
              · rw [hat.1]
                exact h3.1
              · rw [hat.2.1, hat.1]
                show g.pot + pr1.1 + pr2.1 = potSum pr3.1
                rw [h3.2.2, h2.2.2.1, h1.2.2.1, hpot]
            · intro _
              rw [hat.1]
              exact h3.2.1

lemma startHand_inv (g0 : GameSt) (shuffled : List Card) (now : Int) (g1 : GameSt)
    (hv : ValidSetup g0) (h : startHand g0 shuffled now = .ok g1) : Inv g1 := by
  obtain ⟨hstage, hstacks⟩ := hv
  simp only [startHand, bind, Except.bind] at h
  split_ifs at h
  have hreset : (∀ p ∈ g0.players.map Player.resetForNewHand, PBase p)
      ∧ (∀ p ∈ g0.players.map Player.resetForNewHand, PTight p) := by
    constructor <;>
      ( intro p hp
        obtain ⟨q, hq, rfl⟩ := List.mem_map.mp hp
        first
          | exact (resetHand_pred q (hstacks q hq)).1
          | exact (resetHand_pred q (hstacks q hq)).2 )
  split at h
  · rename_i a hante
    split_ifs at h with hpos
    · split at h
      · cases h
      · rename_i pr hantes
        have hA := postAntes_inv a _ _ pr.1 pr.2 (by rw [hantes]) hreset.1 hreset.2
        refine startHandBlinds_inv _ now g1 hA.1 hA.2.1 ?_ h
        show pr.2 = potSum pr.1
        have := hA.2.2
        rw [potSum_map_resetHand] at this
        omega
    · refine startHandBlinds_inv _ now g1 hreset.1 hreset.2 ?_ h
      show (0:Int) = potSum (g0.players.map Player.resetForNewHand)
      rw [potSum_map_resetHand]
  · refine startHandBlinds_inv _ now g1 hreset.1 hreset.2 ?_ h
    show (0:Int) = potSum (g0.players.map Player.resetForNewHand)
    rw [potSum_map_resetHand]

lemma cmpTiebreakersAux_self (a : List Int) (fuel : Nat) : cmpTiebreakersAux a a fuel = 0 := by
  induction fuel generalizing a with
  | zero => rfl
  | succ n ih => simp [cmpTiebreakersAux, ih]

lemma compareHands_self (h : HandEvaluation) : compareHands h h = 0 := by
  simp [compareHands, cmpTiebreakers, cmpTiebreakersAux_self]

lemma foldl_best_mem (e0 : Nat × HandEvaluation) (es : List (Nat × HandEvaluation)) :
    (es.foldl (fun b e => if compareHands e.2 b.2 > 0 then e else b) e0) ∈ e0 :: es := by
  induction es generalizing e0 with
  | nil => simp
  | cons x xs ih =>
    simp only [List.foldl_cons]
    by_cases hc : compareHands x.2 e0.2 > 0
    · rw [if_pos hc]
      rcases List.mem_cons.mp (ih x) with h | h
      · simp [h]
      · simp [h]
    · rw [if_neg hc]
      rcases List.mem_cons.mp (ih e0) with h | h
      · simp [h]
      · simp [h]

lemma potSum_enumFrom_map (n : Nat) (l : List Player) (F : Nat × Player → Player)
    (hF : ∀ ip, (F ip).totalBetThisRound = ip.2.totalBetThisRound) :
    potSum ((List.enumFrom n l).map F) = potSum l := by
  induction l generalizing n with
  | nil => rfl
  | cons p ps ih =>
    simp only [List.enumFrom, List.map_cons]
    rw [potSum_cons, potSum_cons, hF, ih]

lemma forall_enumFrom_map {P : Player → Prop} (n : Nat) (l : List Player)
    (F : Nat × Player → Player) (h : ∀ p ∈ l, P p)
    (hF : ∀ ip, P ip.2 → P (F ip)) :
    ∀ p ∈ (List.enumFrom n l).map F, P p := by
  induction l generalizing n with
  | nil => simp
  | cons q qs ih =>
    simp only [List.enumFrom, List.map_cons]
    intro p hp
    rcases List.mem_cons.mp hp with rfl | hp
    · exact hF (n, q) (h q (by simp))
    · exact ih (n + 1) (fun r hr => h r (by simp [hr])) p hp

lemma handleWinner_inv (g : GameSt) (hi : InvB g) : Inv (handleWinner g) := by
  obtain ⟨hB, hpot⟩ := hi
  have hpos : 0 ≤ g.pot := hpot ▸ potSum_nonneg g.players hB
  constructor
  · constructor
    · intro p hp
      simp only [handleWinner] at hp
      obtain ⟨q, hq, rfl⟩ := List.mem_map.mp hp
      split
      · exact addChips_PBase q g.pot (hB q hq) hpos
      · exact hB q hq
    · show g.pot = potSum (g.players.map fun p => if p.isActive && !p.hasFolded then p.addChips g.pot else p)
      have key : ∀ (c : Int) (l : List Player),
          potSum (l.map fun p => if p.isActive && !p.hasFolded then p.addChips c else p) = potSum l := by
        intro c l
        induction l with
        | nil => rfl
        | cons p ps ih =>
          rw [List.map_cons, potSum_cons, potSum_cons, ih]
          congr 1
          split <;> rfl
      rw [hpot, key]
  · intro hne
    exact absurd rfl hne

lemma showdown_inv (g : GameSt) (g' : GameSt) (hi : InvB g)
    (h : showdown g = .ok g') : Inv g' := by
  obtain ⟨hB, hpot⟩ := hi
  have hpos : 0 ≤ g.pot := hpot ▸ potSum_nonneg g.players hB
  simp only [showdown, bind, Except.bind] at h
  split at h
  · cases h
  · rename_i evals hevals
    split at h
    · cases h
    · rename_i e0 es
      injection h with h
      subst h
      have hwpos : 0 < ((e0 :: es).filter fun e =>
          compareHands e.2 (es.foldl (fun b e => if compareHands e.2 b.2 > 0 then e else b) e0).2 == 0).length := by
        apply List.length_pos.mpr
        intro hnil
        have hmem := foldl_best_mem e0 es
        have : (es.foldl (fun b e => if compareHands e.2 b.2 > 0 then e else b) e0) ∈
            ((e0 :: es).filter fun e =>
              compareHands e.2 (es.foldl (fun b e => if compareHands e.2 b.2 > 0 then e else b) e0).2 == 0) := by
          apply List.mem_filter.mpr
          exact ⟨hmem, by simp [compareHands_self]⟩
        rw [hnil] at this
        cases this
      have hwin : 0 ≤ Int.fdiv g.pot ((e0 :: es).filter fun e =>
          compareHands e.2 (es.foldl (fun b e => if compareHands e.2 b.2 > 0 then e else b) e0).2 == 0).length :=
        Int.fdiv_nonneg hpos (by exact_mod_cast Nat.zero_le _)
      constructor
      · constructor
        · intro p hp
          simp only [List.enum] at hp
          refine forall_enumFrom_map 0 g.players _ hB ?_ p hp
          intro ip hip
          split
          · exact addChips_PBase ip.2 _ hip hwin
          · exact hip
        · show g.pot = _
          rw [hpot]
          simp only [List.enum]
          rw [potSum_enumFrom_map 0 g.players _ (by intro ip; split <;> rfl)]
      · intro hne
        exact absurd rfl hne

lemma resetRound_PBase (p : Player) (h : PBase p) : PBase p.resetForNewRound := h

lemma resetRound_PTight (p : Player) (h : PTight p) : PTight p.resetForNewRound := h

lemma dealFlop_fields (g g' : GameSt) (h : dealFlop g = .ok g') :
    g'.players = g.players ∧ g'.pot = g.pot ∧ g'.stage = .flop := by
  simp only [dealFlop, bind, Except.bind] at h
  split at h
  · cases h
  · injection h with h
    subst h
    exact ⟨rfl, rfl, rfl⟩

lemma dealTurn_fields (g g' : GameSt) (h : dealTurn g = .ok g') :
    g'.players = g.players ∧ g'.pot = g.pot ∧ g'.stage = .turn := by
  simp only [dealTurn, bind, Except.bind] at h
  split at h
  · cases h
  · injection h with h
    subst h
    exact ⟨rfl, rfl, rfl⟩

lemma dealRiver_fields (g g' : GameSt) (h : dealRiver g = .ok g') :
    g'.players = g.players ∧ g'.pot = g.pot ∧ g'.stage = .river := by
  simp only [dealRiver, bind, Except.bind] at h
  split at h
  · cases h
  · injection h with h
    subst h
    exact ⟨rfl, rfl, rfl⟩

lemma dealRemainingLoop_inv (fuel : Nat) : ∀ (g g' : GameSt),
    dealRemainingLoop g fuel = .ok g' → InvB g → InvB g' := by
  induction fuel with
  | zero =>
    intro g g' h hi
    injection h with h
    subst h
    exact hi
  | succ n ih =>
    intro g g' h hi
    obtain ⟨hB, hps⟩ := hi
    have key : ∀ g1 : GameSt, g1.players = g.players → g1.pot = g.pot →
        dealRemainingLoop { g1 with players := g1.players.map Player.resetForNewRound } n
          = .ok g' → InvB g' := by
      intro g1 hpl hpot hrec
      refine ih _ _ hrec ⟨?_, ?_⟩
      · intro p hp
        obtain ⟨q, hq, rfl⟩ := List.mem_map.mp hp
        exact resetRound_PBase q (hB q (hpl ▸ hq))
      · show g1.pot = potSum (g1.players.map Player.resetForNewRound)
        rw [potSum_map_resetRound, hpl, hpot, hps]
    simp only [dealRemainingLoop, bind, Except.bind] at h
    split at h
    · split at h
      · rcases hdf : dealFlop g with e | g1
        · simp only [hdf] at h
          cases h
        · simp only [hdf] at h
          have hf := dealFlop_fields _ _ hdf
          exact key g1 hf.1 hf.2.1 h
      · split at h
        · rcases hdf : dealTurn g with e | g1
          · simp only [hdf] at h
            cases h
          · simp only [hdf] at h
            have hf := dealTurn_fields _ _ hdf
            exact key g1 hf.1 hf.2.1 h
        · split at h
          · rcases hdf : dealRiver g with e | g1
            · simp only [hdf] at h
              cases h
            · simp only [hdf] at h
              have hf := dealRiver_fields _ _ hdf
              exact key g1 hf.1 hf.2.1 h
          · cases h
    · injection h with h
      subst h
      exact ⟨hB, hps⟩

lemma Inv_transfer (a b : GameSt) (hpl : b.players = a.players) (hpo : b.pot = a.pot)
    (hst : b.stage = a.stage) (h : Inv a) : Inv b := by
  obtain ⟨⟨hB, hp⟩, hT⟩ := h
  refine ⟨⟨?_, ?_⟩, ?_⟩
  · rw [hpl]
    exact hB
  · rw [hpo, hpl]
    exact hp
  · rw [hst, hpl]
    exact hT

lemma advanceStage_inv (g : GameSt) (now : Int) (g' : GameSt)
    (h : advanceStage g now = .ok g') (hi : Inv g) : Inv g' := by
  obtain ⟨⟨hB, hpot⟩, hT⟩ := hi
  have hBR : ∀ p ∈ g.players.map Player.resetForNewRound, PBase p := by
    intro p hp
    obtain ⟨q, hq, rfl⟩ := List.mem_map.mp hp
    exact resetRound_PBase q (hB q hq)
  have hTR : g.stage ≠ .complete → ∀ p ∈ g.players.map Player.resetForNewRound, PTight p := by
    intro hne p hp
    obtain ⟨q, hq, rfl⟩ := List.mem_map.mp hp
    exact resetRound_PTight q (hT hne q hq)
  have hpotR : g.pot = potSum (g.players.map Player.resetForNewRound) := by
    rw [potSum_map_resetRound]
    exact hpot
  simp only [advanceStage, bind, Except.bind, pure, Except.pure] at h
  split at h
  · split at h
    · cases h
    · rename_i g1 hg1
      exact showdown_inv g1 g' (dealRemainingLoop_inv 5 _ g1 hg1 ⟨hBR, hpotR⟩) h
  · split at h
    · cases h
    · split at h
      · exact showdown_inv _ g' (by exact ⟨hBR, hpotR⟩) h
      · rcases hst : g.stage with _ | _ | _ | _ | _ | _ | _
        · simp only [hst] at h
          obtain ⟨hpl, hpo, hstg⟩ := startActionTimer_ok _ now g' h
          refine ⟨⟨?_, ?_⟩, ?_⟩
          · rw [hpl]
            exact hBR
          · rw [hpo, hpl]
            exact hpotR
          · intro _
            rw [hpl]
            exact hTR (by rw [hst]; decide)
        · simp only [hst] at h
          split at h
          · cases h
          · rename_i gS hdeal
            obtain ⟨hdpl, hdpo, _⟩ := dealFlop_fields _ _ hdeal
            obtain ⟨hpl, hpo, hstg⟩ := startActionTimer_ok _ now g' h
            refine ⟨⟨?_, ?_⟩, ?_⟩
            · rw [hpl, hdpl]
              exact hBR
            · rw [hpo, hpl, hdpo, hdpl]
              exact hpotR
            · intro _
              rw [hpl, hdpl]
              exact hTR (by rw [hst]; decide)
        · simp only [hst] at h
          split at h
          · cases h
          · rename_i gS hdeal
            obtain ⟨hdpl, hdpo, _⟩ := dealTurn_fields _ _ hdeal
            obtain ⟨hpl, hpo, hstg⟩ := startActionTimer_ok _ now g' h
            refine ⟨⟨?_, ?_⟩, ?_⟩
            · rw [hpl, hdpl]
              exact hBR
            · rw [hpo, hpl, hdpo, hdpl]
              exact hpotR
            · intro _
              rw [hpl, hdpl]
              exact hTR (by rw [hst]; decide)
        · simp only [hst] at h
          split at h
          · cases h
          · rename_i gS hdeal
            obtain ⟨hdpl, hdpo, _⟩ := dealRiver_fields _ _ hdeal
            obtain ⟨hpl, hpo, hstg⟩ := startActionTimer_ok _ now g' h
            refine ⟨⟨?_, ?_⟩, ?_⟩
            · rw [hpl, hdpl]
              exact hBR
            · rw [hpo, hpl, hdpo, hdpl]
              exact hpotR
            · intro _
              rw [hpl, hdpl]
              exact hTR (by rw [hst]; decide)
        · simp only [hst] at h
          split at h
          · cases h
          · rename_i gS hsd
            obtain ⟨hpl, hpo, hstg⟩ := startActionTimer_ok _ now g' h
            exact Inv_transfer gS g' hpl hpo hstg (showdown_inv _ gS (by exact ⟨hBR, hpotR⟩) hsd)
        · simp only [hst] at h
          obtain ⟨hpl, hpo, hstg⟩ := startActionTimer_ok _ now g' h
          refine ⟨⟨?_, ?_⟩, ?_⟩
          · rw [hpl]
            exact hBR
          · rw [hpo, hpl]
            exact hpotR
          · intro _
            rw [hpl]
            exact hTR (by rw [hst]; decide)
        · simp only [hst] at h
          obtain ⟨hpl, hpo, hstg⟩ := startActionTimer_ok _ now g' h
          refine ⟨⟨?_, ?_⟩, ?_⟩
          · rw [hpl]
            exact hBR
          · rw [hpo, hpl]
            exact hpotR
          · intro hne
            exact absurd (by rw [hstg]) hne

lemma nextTurnLoop_inv (g : GameSt) (now : Int) : ∀ (k idx : Nat) (g' : GameSt),
    nextTurnLoop g now idx k = .ok g' → Inv g → Inv g' := by
  intro k
  induction k with
  | zero =>
    intro idx g' h hi
    exact advanceStage_inv g now g' h hi
  | succ n ih =>
    intro idx g' h hi
    simp only [nextTurnLoop] at h
    split at h
    · cases h
    · split at h
      · split at h
        · exact advanceStage_inv g now g' h hi
        · obtain ⟨hpl, hpo, hstg⟩ := startActionTimer_ok _ now g' h
          exact Inv_transfer _ g' hpl hpo hstg hi
      · exact ih _ g' h hi

lemma nextTurn_inv (g : GameSt) (now : Int) (g' : GameSt)
    (h : nextTurn g now = .ok g') (hi : Inv g) : Inv g' := by
  simp only [nextTurn] at h
  split at h
  · injection h with h
    subst h
    exact handleWinner_inv g hi.1
  · exact nextTurnLoop_inv g now _ _ g' h hi

lemma bet_update_inv (g : GameSt) (pid : String) (player : Player)
    (hfind : g.players.find? (fun p => p.id == pid) = some player)
    (hB : ∀ p ∈ g.players, PBase p) (hpot : g.pot = potSum g.players)
    (b amt' : Int) (p' : Player) (hbet : player.bet b = .ok (amt', p')) :
    (∀ p ∈ updateFirstById g.players pid fun _ => p', PBase p)
    ∧ g.pot + amt' = potSum (updateFirstById g.players pid fun _ => p')
    ∧ ((∀ p ∈ g.players, PTight p) →
        ∀ p ∈ updateFirstById g.players pid fun _ => p', PTight p) := by
  have hmem := List.mem_of_find?_eq_some hfind
  obtain ⟨hPB', htb, hamt, hPT'⟩ := bet_preserves player b amt' p' hbet (hB player hmem)
  refine ⟨?_, ?_, ?_⟩
  · exact updateFirstById_forall g.players pid _ hB fun p hp => hPB'
  · rw [updateFirstById_potSum g.players pid player p' hfind, htb, hpot]
    ring
  · intro hT
    exact updateFirstById_forall g.players pid _ hT fun p hp => hPT' (hT player hmem)

lemma betRaiseCase_inv (g : GameSt) (pid : String) (player : Player) (an : String)
    (amt : Option Int) (g2 : GameSt)
    (hfind : g.players.find? (fun p => p.id == pid) = some player)
    (h : betRaiseCase g pid player an amt = .ok g2)
    (hB : ∀ p ∈ g.players, PBase p) (hpot : g.pot = potSum g.players) :
    (∀ p ∈ g2.players, PBase p) ∧ g2.pot = potSum g2.players ∧ g2.stage = g.stage
    ∧ ((∀ p ∈ g.players, PTight p) → ∀ p ∈ g2.players, PTight p) := by
  simp only [betRaiseCase, bind, Except.bind] at h
  split at h
  · cases h
  · split at h
    · cases h
    · split at h
      · cases h
      · split at h
        · split at h
          · cases h
          · rename_i pr hbet
            obtain ⟨hK1, hK2, hK3⟩ :=
              bet_update_inv g pid player hfind hB hpot _ pr.1 pr.2 (by rw [hbet])
            split at h <;> (injection h with h; subst h; exact ⟨hK1, hK2, rfl, hK3⟩)
        · split at h
          · cases h
          · rename_i pr hbet
            obtain ⟨hK1, hK2, hK3⟩ :=
              bet_update_inv g pid player hfind hB hpot _ pr.1 pr.2 (by rw [hbet])
            injection h with h
            subst h
            exact ⟨hK1, hK2, rfl, hK3⟩

lemma processSwitch_inv (g : GameSt) (pid : String) (player : Player) (act : PlayerAction)
    (amt : Option Int) (g2 : GameSt)
    (hfind : g.players.find? (fun p => p.id == pid) = some player)
    (h : processSwitch g pid player act amt = .ok g2)
    (hB : ∀ p ∈ g.players, PBase p) (hpot : g.pot = potSum g.players) :
    (∀ p ∈ g2.players, PBase p) ∧ g2.pot = potSum g2.players ∧ g2.stage = g.stage
    ∧ ((∀ p ∈ g.players, PTight p) → ∀ p ∈ g2.players, PTight p) := by
  cases act with
  | fold =>
    simp only [processSwitch] at h
    injection h with h
    subst h
    refine ⟨?_, ?_, rfl, ?_⟩
    · exact updateFirstById_forall g.players pid Player.fold hB fun p hp => hB p hp
    · show g.pot = potSum (updateFirstById g.players pid Player.fold)
      rw [updateFirstById_potSum_same g.players pid Player.fold fun p => rfl]
      exact hpot
    · intro hT
      exact updateFirstById_forall g.players pid Player.fold hT fun p hp => hT p hp
  | check =>
    simp only [processSwitch] at h
    split at h
    · cases h
    · injection h with h
      subst h
      exact ⟨hB, hpot, rfl, fun hT => hT⟩
  | call =>
    simp only [processSwitch, bind, Except.bind] at h
    split at h
    · cases h
    · rename_i pr hbet
      obtain ⟨hK1, hK2, hK3⟩ :=
        bet_update_inv g pid player hfind hB hpot _ pr.1 pr.2 (by rw [hbet])
      injection h with h
      subst h
      exact ⟨hK1, hK2, rfl, hK3⟩
  | bet =>
    simp only [processSwitch] at h
    exact betRaiseCase_inv g pid player "bet" amt g2 hfind h hB hpot
  | raise =>
    simp only [processSwitch] at h
    exact betRaiseCase_inv g pid player "raise" amt g2 hfind h hB hpot
  | allin =>
    simp only [processSwitch, bind, Except.bind] at h
    split at h
    · cases h
    · rename_i pr hbet
      obtain ⟨hK1, hK2, hK3⟩ :=
        bet_update_inv g pid player hfind hB hpot _ pr.1 pr.2 (by rw [hbet])
      split at h <;> (injection h with h; subst h; exact ⟨hK1, hK2, rfl, hK3⟩)

lemma tryBody_inv (g : GameSt) (now : Int) (pid : String) (player : Player)
    (act : PlayerAction) (amt : Option Int) (g' : GameSt)
    (hfind : g.players.find? (fun p => p.id == pid) = some player)
    (h : tryBody g now pid player act amt = .ok g') (hi : Inv g) : Inv g' := by
  obtain ⟨⟨hB, hpot⟩, hT⟩ := hi
  simp only [tryBody, bind, Except.bind] at h
  split at h
  · cases h
  · rename_i g2 hg2
    obtain ⟨hB2, hpot2, hstage2, hT2⟩ :=
      processSwitch_inv g pid player act amt g2 hfind hg2 hB hpot
    refine nextTurn_inv _ now g' h ⟨⟨?_, ?_⟩, ?_⟩
    · exact hB2
    · exact hpot2
    · intro hne
      exact hT2 (hT (by rw [← hstage2]; exact hne))

lemma handleAction_inv (g : GameSt) (now : Int) (pid : String) (act : PlayerAction)
    (amt : Option Int) (res : ActionResult) (g' : GameSt)
    (h : handleAction g now pid act amt = .ok (res, g')) (hv : res.valid = true)
    (hi : Inv g) : Inv g' := by
  simp only [handleAction] at h
  split at h
  · injection h with h
    injection h with h1 h2
    rw [← h1] at hv
    cases hv
  · rename_i player hfind
    split at h
    · cases h
    · split_ifs at h with h1 h2 h3
      · injection h with h
        injection h with h4 h5
        rw [← h4] at hv
        cases hv
      · injection h with h
        injection h with h4 h5
        rw [← h4] at hv
        cases hv
      · injection h with h
        injection h with h4 h5
        rw [← h4] at hv
        cases hv
      · split at h
        · rename_i g2 htb
          injection h with h
          injection h with h4 h5
          subst h5
          exact tryBody_inv g now pid player act amt g2 hfind htb hi
        · injection h with h
          injection h with h4 h5
          rw [← h4] at hv
          cases hv

lemma reachable_inv (g : GameSt) (h : Reachable g) : Inv g := by
  induction h with
  | start g0 shuffled now g1 hvs hsh => exact startHand_inv g0 shuffled now g1 hvs hsh
  | step gp now pid act amt res gq hre hact hval ih =>
      exact handleAction_inv gp now pid act amt res gq hact hval ih

/-- C7 (amended): at every reachable state of a hand, every seat's stack is at
least 0 and a stack of exactly 0 implies the all-in flag; conversely, before the
pot is awarded (stage not yet `complete`) the all-in flag implies a zero stack.
After the award the flag can survive with a positive stack (the all-in winner
keeps `isAllIn = true`), so the biconditional does not extend to completion. -/
theorem c7_amended_stack_allin (g : GameSt) (h : Reachable g) :
    ∀ p ∈ g.players, 0 ≤ p.stack ∧ (p.stack = 0 → p.isAllIn = true)
      ∧ (g.stage ≠ .complete → p.isAllIn = true → p.stack = 0) := by
  obtain ⟨⟨hB, _⟩, hT⟩ := reachable_inv g h
  intro p hp
  exact ⟨(hB p hp).1, (hB p hp).2.2, fun hne ha => hT hne p hp ha⟩

theorem c7_amended_stack_allin_witness :
    Reachable gHU ∧ ∀ p ∈ gHU.players, 0 ≤ p.stack ∧ (p.stack = 0 → p.isAllIn = true)
      ∧ (gHU.stage ≠ .complete → p.isAllIn = true → p.stack = 0) := by
  have hr : Reachable gHU :=
    Reachable.start gSeated resetDeck 0 gHU ⟨by decide, by decide⟩ (by decide)
  exact ⟨hr, c7_amended_stack_allin gHU hr⟩

/-- C8: at every reachable state of a hand — from `startHand` through completion —
the pot equals the sum over all seats of `totalBetThisRound`, the seat's cumulative
chips put in during this hand (antes, blinds, calls, bets, raises and all-ins). -/
theorem c8_pot_equals_contributions (g : GameSt) (h : Reachable g) :
    g.pot = potSum g.players :=
  (reachable_inv g h).1.2

theorem c8_pot_equals_contributions_witness :
    Reachable gHU ∧ gHU.pot = potSum gHU.players := by
  have hr : Reachable gHU :=
    Reachable.start gSeated resetDeck 0 gHU ⟨by decide, by decide⟩ (by decide)
  exact ⟨hr, c8_pot_equals_contributions gHU hr⟩

end Poker
